import Mathlib

/-!
Shallow embedding of the recira backend (src/backend/*.py) and proofs about
the claims C1..C10.  The managers' mutable state is modelled by explicit
state records, remote command execution by oracle functions in an `Env`
record, and each Python method by a Lean function that mirrors its control
flow.  Remote side effects are recorded as an explicit event trace.
-/

namespace Recira

/-- A bridge as stored in a host record by `ovs_manager.py` (the fields the
claims need: the name and the port list). -/
structure Bridge where
  name : String
  portList : List String
  deriving Repr, DecidableEq

/-- A host record as kept in `OVSManager.hosts` (`ovs_manager.py`).  The dict
keys that the claims touch are modelled as fields; `vxlan_ip` can be absent in
persisted data, hence `Option`. -/
structure Host where
  id : Nat
  hostname : String
  ip : String
  managementIp : String
  vxlanIp : Option String
  type : String
  status : String
  ovsVersion : String
  bridges : List Bridge
  sshUser : String
  sshPassword : String
  deriving Repr, DecidableEq

/-- A switch view entry as produced by `OVSManager.get_all_switches`
(the fields used by `vxlan_manager.py` and `network_manager.py`). -/
structure Switch where
  id : Nat
  name : String
  hostId : Nat
  hostIp : String
  deriving Repr, DecidableEq

/-- `get_all_switches`: enumerate one switch per bridge of each host, ids
counted from 1 in host order (`ovs_manager.py`, `switch_id = 1; ... += 1`). -/
def bridgeSwitches (h : Host) : Nat → List Bridge → List Switch
  | _, [] => []
  | sid, b :: bs =>
      { id := sid, name := b.name, hostId := h.id, hostIp := h.ip }
        :: bridgeSwitches h (sid + 1) bs

/-- Helper for `getAllSwitches`: fold over the host list threading the
monotonic switch id. -/
def switchesAcc : Nat → List Host → List Switch
  | _, [] => []
  | sid, h :: hs =>
      bridgeSwitches h sid h.bridges ++ switchesAcc (sid + h.bridges.length) hs

/-- `OVSManager.get_all_switches` over a host list. -/
def getAllSwitches (hosts : List Host) : List Switch :=
  switchesAcc 1 hosts

/-- A VXLAN port parsed out of `ovs-vsctl show` by
`VXLANManager._get_vxlan_ports` (the parse result; the raw text is remote
output, modelled as an oracle in `Env`). -/
structure VxPort where
  bridge : String
  portName : String
  vni : Nat
  remoteIp : String
  deriving Repr, DecidableEq

/-- The environment a manager call runs in: the registry's hosts, and oracles
for the outcome of the remote `ovs-vsctl` invocations (`add-port` success and
the VXLAN ports visible on each host). -/
structure Env where
  hosts : List Host
  addPortOk : Nat → String → String → Bool
  vxlanPorts : Nat → List VxPort

/-- One remote side effect issued by a manager (the command surface the
claims talk about). -/
inductive Event where
  | addPort (hostId : Nat) (bridge port remoteIp : String) (vni : Nat)
  | delPort (hostId : Nat) (bridge port : String)
  | rmFile (hostIp path : String)
  | restartDnsmasq (hostIp : String)
  | writeConfig (hostIp path : String) (rc : Int)
  | delPortSsh (hostIp bridge port : String)
  | persistNetworks
  | persistDhcp
  deriving Repr, DecidableEq

/-- A tunnel record as stored in `VXLANManager.tunnels` (`vxlan_manager.py`).
`create_tunnel` stores no `discovered` key; we model that as `discovered =
false`. -/
structure Tunnel where
  id : Nat
  srcSwitchId : Nat
  dstSwitchId : Nat
  srcSwitchName : String
  dstSwitchName : String
  srcHost : String
  dstHost : String
  vni : Nat
  srcVxlanIp : String
  dstVxlanIp : String
  tunnelNameSrc : String
  tunnelNameDst : String
  status : String
  discovered : Bool
  deriving Repr, DecidableEq

/-- The mutable state of `VXLANManager`: the tunnel registry (dict keyed by
tunnel id, modelled as a list with the id inside each record), and the two
monotonic counters. -/
structure VxState where
  tunnels : List Tunnel
  nextTunnelId : Nat
  nextVni : Nat
  deriving Repr, DecidableEq

/-- `VXLANManager.__init__`: empty registry, ids from 1, VNI counter at 100. -/
def vxInit : VxState := { tunnels := [], nextTunnelId := 1, nextVni := 100 }

/-- `host.get('id')` lookup used by `VXLANManager._get_host_by_id`. -/
def getHostById (env : Env) (hostId : Nat) : Option Host :=
  env.hosts.find? (fun h => h.id = hostId)

/-- `VXLANManager._get_vxlan_ip`: stored `vxlan_ip` if truthy, else the
management `ip`. -/
def getVxlanIp (h : Host) : String :=
  match h.vxlanIp with
  | some v => if v = "" then h.ip else v
  | none => h.ip

/-- The characters after the last `'.'` (the last piece of `split('.')`),
collected by a single pass. -/
def lastOctetAux : List Char → List Char → List Char
  | [], acc => acc
  | c :: cs, acc =>
      if c = '.' then lastOctetAux cs [] else lastOctetAux cs (acc ++ [c])

/-- `ip.split('.')[-1]`: the last dotted component. -/
def lastOctet (ip : String) : String :=
  ⟨lastOctetAux ip.data []⟩

/-- The canonical VXLAN port name `vxlan{vni}_{octet(peer ip)}`. -/
def vxPortName (vni : Nat) (peerIp : String) : String :=
  "vxlan" ++ toString vni ++ "_" ++ lastOctet peerIp

/-- `VXLANManager._get_switch_by_id`. -/
def getSwitchById (env : Env) (sid : Nat) : Option Switch :=
  (getAllSwitches env.hosts).find? (fun s => s.id = sid)

/-- `VXLANManager._get_host_for_switch`: look the switch up, then its host. -/
def getHostForSwitch (env : Env) (sid : Nat) : Option Host :=
  (getSwitchById env sid).bind (fun s => getHostById env s.hostId)

/-- `VXLANManager.create_tunnel`.  Mirrors the source's order: switch lookup,
VNI auto-assignment (a bare counter read and increment), host lookup, endpoint
IPs, the two `add-port` calls with rollback of the first on failure of the
second, and finally the registry insert. -/
def createTunnel (env : Env) (vx : VxState) (srcSwitchId dstSwitchId : Nat)
    (vniArg : Option Nat) : Option Tunnel × VxState × List Event :=
  match (getAllSwitches env.hosts).find? (fun s => s.id = srcSwitchId),
        (getAllSwitches env.hosts).find? (fun s => s.id = dstSwitchId) with
  | some srcSwitch, some dstSwitch =>
    -- `if vni is None: vni = self.next_vni; self.next_vni += 1`
    let alloc : Nat × VxState :=
      match vniArg with
      | none => (vx.nextVni, { vx with nextVni := vx.nextVni + 1 })
      | some v => (v, vx)
    let vni := alloc.1
    let vx := alloc.2
    match getHostById env srcSwitch.hostId, getHostById env dstSwitch.hostId with
    | some srcHost, some dstHost =>
      let srcIp := getVxlanIp srcHost
      let dstIp := getVxlanIp dstHost
      if srcIp = "" ∨ dstIp = "" then (none, vx, [])
      else
        let nameSrc := vxPortName vni dstIp
        let nameDst := vxPortName vni srcIp
        let e1 := Event.addPort srcHost.id srcSwitch.name nameSrc dstIp vni
        if env.addPortOk srcHost.id srcSwitch.name nameSrc then
          let e2 := Event.addPort dstHost.id dstSwitch.name nameDst srcIp vni
          if env.addPortOk dstHost.id dstSwitch.name nameDst then
            let t : Tunnel :=
              { id := vx.nextTunnelId, srcSwitchId := srcSwitchId,
                dstSwitchId := dstSwitchId, srcSwitchName := srcSwitch.name,
                dstSwitchName := dstSwitch.name, srcHost := srcHost.hostname,
                dstHost := dstHost.hostname, vni := vni, srcVxlanIp := srcIp,
                dstVxlanIp := dstIp, tunnelNameSrc := nameSrc,
                tunnelNameDst := nameDst, status := "up", discovered := false }
            (some t,
             { vx with tunnels := vx.tunnels ++ [t],
                       nextTunnelId := vx.nextTunnelId + 1 },
             [e1, e2])
          else
            -- rollback: delete the port created on the source bridge
            (none, vx, [e1, e2, Event.delPort srcHost.id srcSwitch.name nameSrc])
        else (none, vx, [e1])
    | _, _ => (none, vx, [])
  | _, _ => (none, vx, [])

/-- `VXLANManager.delete_tunnel`: the registry entry is removed in every
branch in which it exists, even when an endpoint host can no longer be
resolved (then no `del-port` is issued). -/
def deleteTunnel (env : Env) (vx : VxState) (tid : Nat) :
    Bool × VxState × List Event :=
  match vx.tunnels.find? (fun t => t.id = tid) with
  | none => (false, vx, [])
  | some t =>
    let vx' := { vx with tunnels := vx.tunnels.filter (fun u => ¬ u.id = tid) }
    match getHostForSwitch env t.srcSwitchId, getHostForSwitch env t.dstSwitchId with
    | some srcHost, some dstHost =>
        (true, vx',
         [Event.delPort srcHost.id t.srcSwitchName t.tunnelNameSrc,
          Event.delPort dstHost.id t.dstSwitchName t.tunnelNameDst])
    | _, _ => (true, vx', [])

/-- `VXLANManager._find_host_by_vxlan_ip`. -/
def findHostByVxlanIp (env : Env) (ip : String) : Option Host :=
  env.hosts.find? (fun h => h.vxlanIp = some ip ∨ h.ip = ip)

/-- `VXLANManager._find_switch_on_host`. -/
def findSwitchOnHost (env : Env) (hostId : Nat) (bridgeName : String) : Option Switch :=
  (getAllSwitches env.hosts).find? (fun s => s.hostId = hostId ∧ s.name = bridgeName)

/-- `VXLANManager._find_switch_on_host_by_vxlan_ip`. -/
def findSwitchOnHostByVxlanIp (env : Env) (ip : String) : Option Switch :=
  (findHostByVxlanIp env ip).bind (fun h =>
    (getAllSwitches env.hosts).find? (fun s => s.hostId = h.id))

/-- Lexicographic comparison of character lists (Python's string ordering,
code point by code point). -/
def charListLt : List Char → List Char → Bool
  | [], [] => false
  | [], _ :: _ => true
  | _ :: _, [] => false
  | a :: as, b :: bs =>
      if a < b then true else if b < a then false else charListLt as bs

/-- `tuple(sorted([a, b]))` on two strings. -/
def sortPair (a b : String) : String × String :=
  if charListLt a.data b.data then (a, b) else (b, a)

/-- The accumulator threaded by `discover_tunnels`: the local `seen_tunnels`
set, the manager state and the `discovered` counter. -/
structure DiscoverAcc where
  seen : List (Nat × String × String)
  vx : VxState
  count : Nat

/-- The body of the inner port loop of `VXLANManager.discover_tunnels` for one
host. -/
def discoverPort (env : Env) (host : Host) (p : VxPort) (acc : DiscoverAcc) :
    DiscoverAcc :=
  let hostIp := getVxlanIp host
  let ips := sortPair hostIp p.remoteIp
  let key := (p.vni, ips.1, ips.2)
  if key ∈ acc.seen then acc
  else
    let acc := { acc with seen := key :: acc.seen }
    match findHostByVxlanIp env p.remoteIp with
    | none => acc
    | some remoteHost =>
      match findSwitchOnHost env host.id p.bridge,
            findSwitchOnHostByVxlanIp env p.remoteIp with
      | some srcSwitch, some dstSwitch =>
        let t : Tunnel :=
          { id := acc.vx.nextTunnelId, srcSwitchId := srcSwitch.id,
            dstSwitchId := dstSwitch.id, srcSwitchName := srcSwitch.name,
            dstSwitchName := dstSwitch.name, srcHost := host.hostname,
            dstHost := remoteHost.hostname, vni := p.vni, srcVxlanIp := hostIp,
            dstVxlanIp := p.remoteIp,
            tunnelNameSrc := vxPortName p.vni p.remoteIp,
            tunnelNameDst := vxPortName p.vni hostIp,
            status := "up", discovered := true }
        { acc with
          vx := { tunnels := acc.vx.tunnels ++ [t],
                  nextTunnelId := acc.vx.nextTunnelId + 1,
                  nextVni := if acc.vx.nextVni ≤ p.vni then p.vni + 1
                             else acc.vx.nextVni },
          count := acc.count + 1 }
      | _, _ => acc

/-- The inner port loop of `discover_tunnels` over one host's parsed VXLAN
ports. -/
def discoverHostPorts (env : Env) (host : Host) :
    List VxPort → DiscoverAcc → DiscoverAcc
  | [], acc => acc
  | p :: ps, acc => discoverHostPorts env host ps (discoverPort env host p acc)

/-- The outer host loop of `discover_tunnels`. -/
def discoverHosts (env : Env) : List Host → DiscoverAcc → DiscoverAcc
  | [], acc => acc
  | h :: hs, acc =>
      discoverHosts env hs (discoverHostPorts env h (env.vxlanPorts h.id) acc)

/-- `VXLANManager.discover_tunnels`: returns the `discovered` count and the
updated manager state. -/
def discoverTunnels (env : Env) (vx : VxState) : Nat × VxState :=
  let acc := discoverHosts env env.hosts { seen := [], vx := vx, count := 0 }
  (acc.count, acc.vx)

/-! Pure recomputation of what one discovery run adds, used to state the
decomposition of `discoverTunnels`.  The records carry id 0; the run assigns
consecutive ids starting from `nextTunnelId`. -/

/-- Assign consecutive ids starting at `n` to a list of id-0 records. -/
def withIds : Nat → List Tunnel → List Tunnel
  | _, [] => []
  | n, t :: ts => { t with id := n } :: withIds (n + 1) ts

/-- How a discovery run advances `next_vni`: past every discovered VNI. -/
def vniAdvance : Nat → List Tunnel → Nat
  | nv, [] => nv
  | nv, t :: ts => vniAdvance (if nv ≤ t.vni then t.vni + 1 else nv) ts

/-- Pure twin of `discoverPort`: the id-0 record it would add, if any. -/
def discoverPortPure (env : Env) (host : Host) (p : VxPort)
    (seen : List (Nat × String × String)) :
    List (Nat × String × String) × List Tunnel :=
  let hostIp := getVxlanIp host
  let ips := sortPair hostIp p.remoteIp
  let key := (p.vni, ips.1, ips.2)
  if key ∈ seen then (seen, [])
  else
    let seen := key :: seen
    match findHostByVxlanIp env p.remoteIp with
    | none => (seen, [])
    | some remoteHost =>
      match findSwitchOnHost env host.id p.bridge,
            findSwitchOnHostByVxlanIp env p.remoteIp with
      | some srcSwitch, some dstSwitch =>
        let t : Tunnel :=
          { id := 0, srcSwitchId := srcSwitch.id,
            dstSwitchId := dstSwitch.id, srcSwitchName := srcSwitch.name,
            dstSwitchName := dstSwitch.name, srcHost := host.hostname,
            dstHost := remoteHost.hostname, vni := p.vni, srcVxlanIp := hostIp,
            dstVxlanIp := p.remoteIp,
            tunnelNameSrc := vxPortName p.vni p.remoteIp,
            tunnelNameDst := vxPortName p.vni hostIp,
            status := "up", discovered := true }
        (seen, [t])
      | _, _ => (seen, [])

/-- Pure twin of `discoverHostPorts`. -/
def discoverHostPortsPure (env : Env) (host : Host) :
    List VxPort → List (Nat × String × String) →
    List (Nat × String × String) × List Tunnel
  | [], seen => (seen, [])
  | p :: ps, seen =>
      let r := discoverPortPure env host p seen
      let r' := discoverHostPortsPure env host ps r.1
      (r'.1, r.2 ++ r'.2)

/-- Pure twin of `discoverHosts`. -/
def discoverHostsPure (env : Env) :
    List Host → List (Nat × String × String) →
    List (Nat × String × String) × List Tunnel
  | [], seen => (seen, [])
  | h :: hs, seen =>
      let r := discoverHostPortsPure env h (env.vxlanPorts h.id) seen
      let r' := discoverHostsPure env hs r.1
      (r'.1, r.2 ++ r'.2)

/-- The id-0 tunnel records one discovery run over `env` adds: a pure function
of the environment alone. -/
def discoverPure (env : Env) : List Tunnel :=
  (discoverHostsPure env env.hosts []).2

/-! ### Network manager (`network_manager.py`) -/

/-- A `Network` record (`network_manager.py`). -/
structure Network where
  id : Nat
  name : String
  vni : Nat
  subnet : String
  gateway : String
  switches : List Nat
  tunnels : List Nat
  deriving Repr, DecidableEq

/-- The mutable state of `NetworkManager`: the networks dict (keyed by id,
modelled as a list carrying the id) and the two counters. -/
structure NetState where
  networks : List Network
  nextNetworkId : Nat
  nextVni : Nat
  deriving Repr, DecidableEq

/-- `NetworkManager.__init__` with no config file: ids from 1, VNIs from
1000. -/
def netInit : NetState := { networks := [], nextNetworkId := 1, nextVni := 1000 }

/-- The combined state the network-level operations act on: the tunnel
registry plus the network records. -/
structure SysState where
  vx : VxState
  net : NetState
  deriving Repr, DecidableEq

/-- The controller's initial state. -/
def sysInit : SysState := { vx := vxInit, net := netInit }

/-- The `while next_vni in used: next_vni += 1` scan of
`NetworkManager._allocate_vni`, with explicit fuel (the loop ends because
`used` is finite; `used.length + 1` steps always suffice). -/
def allocFrom (used : List Nat) : Nat → Nat → Nat
  | start, 0 => start
  | start, fuel + 1 => if start ∈ used then allocFrom used (start + 1) fuel else start

/-- `NetworkManager._allocate_vni`: first value from the counter not used by
any existing network; returns the VNI and the new counter. -/
def allocateVni (networks : List Network) (nextVni : Nat) : Nat × Nat :=
  let used := (networks.map (fun n => n.vni)).dedup
  let v := allocFrom used nextVni (used.length + 1)
  (v, v + 1)

/-- The unordered pairs `(switches[i], switches[j])`, `i < j`, in the order
the nested loops of `create_network` visit them. -/
def orderedPairs : List Nat → List (Nat × Nat)
  | [] => []
  | x :: xs => xs.map (fun y => (x, y)) ++ orderedPairs xs

/-- The full-mesh loop shared by `create_network` and
`add_switch_to_network`: call `create_tunnel` for each pair with the
network's VNI and collect the ids of the successes. -/
def createMesh (env : Env) (vni : Nat) :
    List (Nat × Nat) → VxState → List Nat × VxState × List Event
  | [], vx => ([], vx, [])
  | (s, d) :: rest, vx =>
    let r := createTunnel env vx s d (some vni)
    let r' := createMesh env vni rest r.2.1
    match r.1 with
    | some t => (t.id :: r'.1, r'.2.1, r.2.2 ++ r'.2.2)
    | none => (r'.1, r'.2.1, r.2.2 ++ r'.2.2)

/-- `NetworkManager.create_network`.  Mirrors the source: validate every
switch id, then (reject a duplicate explicit VNI / allocate a fresh one),
build the record, create the mesh, store only the successful tunnel ids,
insert the network and persist.  There is no minimum-switch-count check
here. -/
def createNetwork (env : Env) (s : SysState) (name : String)
    (switchIds : List Nat) (vniArg : Option Nat) (subnet gateway : String) :
    Option Network × SysState × List Event :=
  if switchIds.all (fun sid =>
      ((getAllSwitches env.hosts).find? (fun sw => sw.id = sid)).isSome) then
    let choice : Option (Nat × Nat) :=
      match vniArg with
      | none =>
        let a := allocateVni s.net.networks s.net.nextVni
        some (a.1, a.2)
      | some v =>
        if s.net.networks.any (fun n => n.vni = v) then none
        else some (v, s.net.nextVni)
    match choice with
    | none => (none, s, [])
    | some (vni, nextVni') =>
      let m := createMesh env vni (orderedPairs switchIds) s.vx
      let network : Network :=
        { id := s.net.nextNetworkId, name := name, vni := vni,
          subnet := subnet, gateway := gateway, switches := switchIds,
          tunnels := m.1 }
      (some network,
       { vx := m.2.1,
         net := { networks := s.net.networks ++ [network],
                  nextNetworkId := s.net.nextNetworkId + 1,
                  nextVni := nextVni' } },
       m.2.2 ++ [Event.persistNetworks])
  else (none, s, [])

/-- The tunnel-deletion loop of `NetworkManager.delete_network`. -/
def deleteTunnels (env : Env) : List Nat → VxState → VxState × List Event
  | [], vx => (vx, [])
  | tid :: tids, vx =>
    let r := deleteTunnel env vx tid
    let r' := deleteTunnels env tids r.2.1
    (r'.1, r.2.2 ++ r'.2)

/-- `NetworkManager.delete_network`: unknown id is a no-op failure; otherwise
delete the network's tunnels, drop the record, persist. -/
def deleteNetwork (env : Env) (s : SysState) (nid : Nat) :
    Bool × SysState × List Event :=
  match s.net.networks.find? (fun n => n.id = nid) with
  | none => (false, s, [])
  | some n =>
    let r := deleteTunnels env n.tunnels s.vx
    (true,
     { vx := r.1,
       net := { s.net with
                networks := s.net.networks.filter (fun m => ¬ m.id = nid) } },
     r.2 ++ [Event.persistNetworks])

/-- `NetworkManager.add_switch_to_network`: reject unknown network, member
switch, or unresolvable switch; otherwise create a tunnel from the new switch
to every existing member with the network's VNI, append switch and successful
tunnel ids, persist. -/
def addSwitchToNetwork (env : Env) (s : SysState) (nid sid : Nat) :
    Bool × SysState × List Event :=
  match s.net.networks.find? (fun n => n.id = nid) with
  | none => (false, s, [])
  | some n =>
    if sid ∈ n.switches then (false, s, [])
    else if ((getAllSwitches env.hosts).find? (fun sw => sw.id = sid)).isNone then
      (false, s, [])
    else
      let m := createMesh env n.vni (n.switches.map (fun e => (sid, e))) s.vx
      let n' := { n with switches := n.switches ++ [sid],
                         tunnels := n.tunnels ++ m.1 }
      (true,
       { vx := m.2.1,
         net := { s.net with
                  networks := s.net.networks.map
                    (fun q => if q.id = nid then n' else q) } },
       m.2.2 ++ [Event.persistNetworks])

/-- The operations claims C1 and C2 quantify over. -/
inductive Op where
  | createNet (name : String) (switchIds : List Nat) (vniArg : Option Nat)
      (subnet gateway : String)
  | deleteNet (nid : Nat)
  | addSwitch (nid sid : Nat)
  | delTunnel (tid : Nat)

/-- One operation applied to the combined state. -/
def stepOp (env : Env) (s : SysState) : Op → SysState
  | .createNet nm sw v su gw => (createNetwork env s nm sw v su gw).2.1
  | .deleteNet nid => (deleteNetwork env s nid).2.1
  | .addSwitch nid sid => (addSwitchToNetwork env s nid sid).2.1
  | .delTunnel tid => { s with vx := (deleteTunnel env s.vx tid).2.1 }

/-- Run a sequence of operations from the initial controller state. -/
def runOps (env : Env) (ops : List Op) : SysState :=
  ops.foldl (stepOp env) sysInit

/-- The `/api/networks/create` handler fragment of `server.py`: the
minimum-switch-count check lives here, before the manager is called. -/
def handleNetworksCreate (env : Env) (s : SysState) (name : String)
    (switchIds : List Nat) (vniArg : Option Nat) (subnet gateway : String) :
    Option String × Option Network × SysState :=
  if name = "" then (some "Missing required field: name", none, s)
  else if switchIds.isEmpty ∨ switchIds.length < 2 then
    (some "Network requires at least 2 switches", none, s)
  else
    let r := createNetwork env s name switchIds vniArg subnet gateway
    (none, r.1, r.2.1)

/-! ### DHCP manager (`dhcp_manager.py`) -/

/-- A DHCP reservation `{mac, ip, hostname}`. -/
structure Reservation where
  mac : String
  ip : String
  hostname : String
  deriving Repr, DecidableEq

/-- A `DhcpConfig` entry of `DHCPManager.dhcp_configs` (the fields the claims
touch). -/
structure DhcpConfig where
  hostIp : String
  bridge : String
  portName : String
  gateway : String
  dhcpStart : String
  dhcpEnd : String
  netmask : String
  leaseTime : String
  dnsServers : List String
  reservations : List Reservation
  configPath : String
  deriving Repr, DecidableEq

/-- The outcome record the DHCP operations return (`success` and `message`
of the result dict). -/
structure DhcpResult where
  success : Bool
  message : String
  deriving Repr, DecidableEq

/-- `DHCPManager._get_host_credentials`.  The source reads the dict keys
`username` and `password` off `get_all_hosts()` entries, but those dicts only
ever carry `ssh_user`/`ssh_password` (and `get_all_hosts` strips
`ssh_password`), so both `dict.get` calls fall back to their defaults
`'root'` and `''` for every host, matched or not. -/
def dhcpGetHostCredentials (hosts : List Host) (hostIp : String) :
    String × String :=
  match hosts.find? (fun h => h.ip = hostIp ∨ h.managementIp = hostIp) with
  | some _ => ("root", "")
  | none => ("root", "")

/-- The credential-resolution prologue shared by the DHCP operations:
`username` defaults to `'root'`; an absent password falls back to the stored
lookup (`username = stored_user or username`). -/
def resolveDhcpCreds (hosts : List Host) (hostIp : String)
    (usernameArg passwordArg : Option String) : String × String :=
  let username :=
    match usernameArg with
    | some u => if u = "" then "root" else u
    | none => "root"
  let password := passwordArg.getD ""
  if password = "" then
    let sp := dhcpGetHostCredentials hosts hostIp
    if ¬ sp.2 = "" then ((if sp.1 = "" then username else sp.1), sp.2)
    else (username, "")
  else (username, password)

/-- MAC normalization of the reservation operations:
`mac.lower().replace('-', ':')`. -/
def normalizeMac (mac : String) : String :=
  ⟨(mac.data.map Char.toLower).map (fun c => if c = '-' then ':' else c)⟩

/-- The for/else update of `add_reservation`: update the first entry with the
same MAC in place, else append the new one. -/
def addResList (mac ip hostname : String) : List Reservation → List Reservation
  | [] => [{ mac := mac, ip := ip, hostname := hostname }]
  | r :: rs =>
    if r.mac = mac then { r with ip := ip, hostname := hostname } :: rs
    else r :: addResList mac ip hostname rs

/-- `DHCPManager.add_reservation`.  `rcWrite`/`rcRestart` are the exit codes
the two remote commands would return; the source checks `rcWrite` only to
decide whether to also restart, and neither code affects the result or the
persisted state.  `networks` is the network manager's list (`get_network`);
when the network is missing the remote rewrite is skipped entirely. -/
def addReservation (hosts : List Host) (networks : List Network)
    (dhcp : List (Nat × DhcpConfig)) (nid : Nat) (mac ip hostname : String)
    (usernameArg passwordArg : Option String) (rcWrite rcRestart : Int) :
    DhcpResult × List (Nat × DhcpConfig) × List Event :=
  match dhcp.find? (fun p => p.1 = nid) with
  | none =>
      ({ success := false, message := "DHCP not enabled for network" }, dhcp, [])
  | some pc =>
    let c := pc.2
    let creds := resolveDhcpCreds hosts c.hostIp usernameArg passwordArg
    if creds.2 = "" then
      ({ success := false, message := "No SSH credentials available for host" },
       dhcp, [])
    else
      let m := normalizeMac mac
      let c' := { c with reservations := addResList m ip hostname c.reservations }
      let dhcp' := dhcp.map (fun q => if q.1 = nid then (q.1, c') else q)
      let evs :=
        match networks.find? (fun n => n.id = nid) with
        | some _ =>
            [Event.writeConfig c.hostIp c.configPath rcWrite]
              ++ (if rcWrite = 0 then [Event.restartDnsmasq c.hostIp] else [])
        | none => []
      ({ success := true, message := "Reservation added" },
       dhcp', evs ++ [Event.persistDhcp])

/-- `DHCPManager.disable_dhcp`: unknown network or unresolvable credentials
fail without touching anything; otherwise remove the config file, restart
dnsmasq, delete the gateway port, drop the entry and persist. -/
def disableDhcp (hosts : List Host) (dhcp : List (Nat × DhcpConfig))
    (nid : Nat) (usernameArg passwordArg : Option String) :
    DhcpResult × List (Nat × DhcpConfig) × List Event :=
  match dhcp.find? (fun p => p.1 = nid) with
  | none =>
      ({ success := false, message := "DHCP not enabled for network" }, dhcp, [])
  | some pc =>
    let c := pc.2
    let creds := resolveDhcpCreds hosts c.hostIp usernameArg passwordArg
    if creds.2 = "" then
      ({ success := false, message := "No SSH credentials available for host" },
       dhcp, [])
    else
      let evs :=
        [Event.rmFile c.hostIp c.configPath, Event.restartDnsmasq c.hostIp]
          ++ (if ¬ c.portName = "" ∧ ¬ c.bridge = "" then
                [Event.delPortSsh c.hostIp c.bridge c.portName]
              else [])
      ({ success := true, message := "DHCP disabled" },
       dhcp.filter (fun p => ¬ p.1 = nid), evs ++ [Event.persistDhcp])

/-- The controller state including the DHCP manager. -/
structure FullState where
  sys : SysState
  dhcp : List (Nat × DhcpConfig)
  deriving Repr, DecidableEq

/-- The `/api/networks/delete` handler of `server.py`: a falsy id is rejected;
otherwise DHCP is disabled first when a config exists (with no way to pass
credentials), then the network manager deletes the network. -/
def handleNetworksDelete (env : Env) (fs : FullState) (nid : Nat) :
    Bool × FullState × List Event :=
  if nid = 0 then (false, fs, [])
  else
    let d :=
      match fs.dhcp.find? (fun p => p.1 = nid) with
      | some _ =>
          let r := disableDhcp env.hosts fs.dhcp nid none none
          (r.2.1, r.2.2)
      | none => (fs.dhcp, ([] : List Event))
    let r := deleteNetwork env fs.sys nid
    (r.1, { sys := r.2.1, dhcp := d.1 }, d.2 ++ r.2.2)

/-! ### Host registry startup load (`ovs_manager.py`) -/

/-- A persisted host entry of `/tmp/recira-hosts.json` as `_load_config`
reads it (every field through `dict.get`, hence optional). -/
structure SavedHost where
  hostname : Option String
  ip : Option String
  managementIp : Option String
  vxlanIp : Option String
  type : String
  sshUser : Option String
  sshPassword : Option String
  deriving Repr, DecidableEq

/-- The outcomes of the three re-probe commands `_reconnect_host` issues
(`hostname`, `ovs-vsctl --version` parsed, `ovs-vsctl list-br` plus bridge
details); `none` is a probe that raised. -/
structure Probes where
  hostname : Option String
  ovsVersion : Option String
  bridges : Option (List Bridge)
  deriving Repr

/-- Python's `a or b` over the optional strings of `_load_config`. -/
def orStr (a b : Option String) : Option String :=
  match a with
  | some s => if s = "" then b else some s
  | none => b

/-- `OVSManager._reconnect_host`: every probe failure falls back (saved
hostname or ip, `'unknown'` version, empty bridge list) and the host is
stored unconditionally with `status = 'online'`. -/
def reconnectHost (hostId : Nat) (ip username password : String)
    (vxlanIpArg savedHostname : Option String) (pr : Probes) : Host :=
  { id := hostId,
    hostname := pr.hostname.getD (savedHostname.getD ip),
    ip := ip,
    managementIp := ip,
    vxlanIp := some (match vxlanIpArg with
                     | some v => if v = "" then ip else v
                     | none => ip),
    type := "remote",
    status := "online",
    ovsVersion := pr.ovsVersion.getD "unknown",
    bridges := pr.bridges.getD [],
    sshUser := username,
    sshPassword := password }

/-- The mutable state of `OVSManager` (hosts dict keyed by id, modelled as a
list carrying the id, plus the id counter). -/
structure OvsState where
  hosts : List Host
  nextHostId : Nat
  deriving Repr, DecidableEq

/-- The per-entry body of the `_load_config` reconnect loop. -/
def loadHostEntry (probes : Nat → Probes) (acc : List Host)
    (entry : Nat × SavedHost) : List Host :=
  let hd := entry.2
  if hd.type = "localhost" then acc
  else
    match orStr hd.managementIp hd.ip, hd.sshPassword with
    | some i, some p =>
      if ¬ i = "" ∧ ¬ p = "" then
        acc ++ [reconnectHost entry.1 i (hd.sshUser.getD "root") p
                  hd.vxlanIp hd.hostname (probes entry.1)]
      else acc
    | _, _ => acc

/-- `OVSManager._load_config`: reconnect every persisted non-localhost host
with an address and password, then bump `next_host_id` past every loaded
id. -/
def loadConfig (saved : List (Nat × SavedHost)) (savedNextId : Nat)
    (probes : Nat → Probes) : OvsState :=
  let hosts := saved.foldl (loadHostEntry probes) []
  let maxId := (hosts.map (fun h => h.id)).foldl max 0
  { hosts := hosts,
    nextHostId := if hosts ≠ [] ∧ savedNextId ≤ maxId then maxId + 1
                  else savedNextId }

/-- `OVSManager.get_all_hosts`: every host, with the password stripped. -/
def getAllHosts (st : OvsState) : List Host :=
  st.hosts.map (fun h => { h with sshPassword := "" })

/-- The state after appending one discovery run's id-0 records: ids assigned
from `nextTunnelId`, the VNI counter advanced past every discovered VNI. -/
def vxExtend (vx : VxState) (ds : List Tunnel) : VxState :=
  { tunnels := vx.tunnels ++ withIds vx.nextTunnelId ds,
    nextTunnelId := vx.nextTunnelId + ds.length,
    nextVni := vniAdvance vx.nextVni ds }

/-- The state invariant maintained by the network-level operations: distinct
network VNIs and ids, id counters above every stored id, every registry
tunnel owned by a network, and every owned registry tunnel consistent with
its network's VNI and switch set. -/
structure Inv (s : SysState) : Prop where
  vniDistinct : s.net.networks.Pairwise (fun a b => a.vni ≠ b.vni)
  idDistinct : s.net.networks.Pairwise (fun a b => a.id ≠ b.id)
  netIdLt : ∀ n ∈ s.net.networks, n.id < s.net.nextNetworkId
  tidLt : ∀ n ∈ s.net.networks, ∀ tid ∈ n.tunnels, tid < s.vx.nextTunnelId
  regIdLt : ∀ t ∈ s.vx.tunnels, t.id < s.vx.nextTunnelId
  owned : ∀ t ∈ s.vx.tunnels, ∃ n ∈ s.net.networks, t.id ∈ n.tunnels
  matchNet : ∀ n ∈ s.net.networks, ∀ t ∈ s.vx.tunnels, t.id ∈ n.tunnels →
      t.vni = n.vni ∧ t.srcSwitchId ∈ n.switches ∧ t.dstSwitchId ∈ n.switches

/-! ### Concrete fixtures used by counterexamples and witnesses -/

/-- Fixture: remote host 1 with overlay address `10.0.0.1` and bridge `br0`. -/
def hostA : Host :=
  { id := 1, hostname := "h1", ip := "10.0.0.1", managementIp := "10.0.0.1",
    vxlanIp := some "10.0.0.1", type := "remote", status := "online",
    ovsVersion := "2.17.0", bridges := [{ name := "br0", portList := [] }],
    sshUser := "root", sshPassword := "pw" }

/-- Fixture: remote host 2 with overlay address `10.0.0.2` and bridge `br0`. -/
def hostB : Host :=
  { id := 2, hostname := "h2", ip := "10.0.0.2", managementIp := "10.0.0.2",
    vxlanIp := some "10.0.0.2", type := "remote", status := "online",
    ovsVersion := "2.17.0", bridges := [{ name := "br0", portList := [] }],
    sshUser := "root", sshPassword := "pw" }

/-- Fixture: two hosts, every `add-port` succeeds, and each host shows one
out-of-band VXLAN port of the same tunnel (VNI 5) in `ovs-vsctl show`. -/
def env2 : Env :=
  { hosts := [hostA, hostB],
    addPortOk := fun _ _ _ => true,
    vxlanPorts := fun hid =>
      if hid = 1 then
        [{ bridge := "br0", portName := "vxlan5_2", vni := 5,
           remoteIp := "10.0.0.2" }]
      else if hid = 2 then
        [{ bridge := "br0", portName := "vxlan5_1", vni := 5,
           remoteIp := "10.0.0.1" }]
      else [] }

/-- Fixture: a single resolvable switch. -/
def env1 : Env :=
  { hosts := [hostA], addPortOk := fun _ _ _ => true, vxlanPorts := fun _ => [] }

/-- Fixture: `add-port` succeeds on host 1 and fails on host 2. -/
def envFail : Env :=
  { hosts := [hostA, hostB], addPortOk := fun hid _ _ => hid == 1,
    vxlanPorts := fun _ => [] }

/-- The switch view entry of `hostA`'s bridge in the fixtures. -/
def switchA : Switch := { id := 1, name := "br0", hostId := 1, hostIp := "10.0.0.1" }

/-- The switch view entry of `hostB`'s bridge in the two-host fixtures. -/
def switchB : Switch := { id := 2, name := "br0", hostId := 2, hostIp := "10.0.0.2" }

/-- The network record `createNetwork env2 sysInit "n" [1, 2] (some 5)`
produces. -/
def sampleNet : Network :=
  { id := 1, name := "n", vni := 5, subnet := "", gateway := "",
    switches := [1, 2], tunnels := [1] }

/-- The tunnel record that network creation stores in the fixture. -/
def sampleTun : Tunnel :=
  { id := 1, srcSwitchId := 1, dstSwitchId := 2, srcSwitchName := "br0",
    dstSwitchName := "br0", srcHost := "h1", dstHost := "h2", vni := 5,
    srcVxlanIp := "10.0.0.1", dstVxlanIp := "10.0.0.2",
    tunnelNameSrc := "vxlan5_2", tunnelNameDst := "vxlan5_1", status := "up",
    discovered := false }

/-- Fixture: a `DhcpConfig` for network 1 hosted on `hostA`. -/
def dhcpCfg1 : DhcpConfig :=
  { hostIp := "10.0.0.1", bridge := "br0", portName := "vni5-gw",
    gateway := "10.1.0.1", dhcpStart := "10.1.0.10", dhcpEnd := "10.1.0.250",
    netmask := "255.255.255.0", leaseTime := "24h",
    dnsServers := ["8.8.8.8", "8.8.4.4"], reservations := [],
    configPath := "/etc/dnsmasq.d/recira-network-1.conf" }

/-- Fixture: the controller state with network 1 (VNI 5, one tunnel) created
and DHCP enabled for it. -/
def fsC7 : FullState :=
  { sys := (createNetwork env2 sysInit "prod" [1, 2] (some 5) "10.1.0.0/24"
             "10.1.0.1").2.1,
    dhcp := [(1, dhcpCfg1)] }

/-- Fixture: a persisted remote host entry. -/
def savedHost1 : SavedHost :=
  { hostname := some "nodeA", ip := some "10.0.0.5", managementIp := none,
    vxlanIp := none, type := "remote", sshUser := some "root",
    sshPassword := some "pw" }

/-- Fixture: every re-probe command fails. -/
def deadProbes : Nat → Probes := fun _ =>
  { hostname := none, ovsVersion := none, bridges := none }

/-! ### Generic list helpers -/

/-- Removing an element that fails the predicate makes the filter strictly
shorter. -/
theorem length_filter_lt_of_mem {α : Type} {l : List α} {p : α → Bool} {a : α}
    (ha : a ∈ l) (hpa : p a = false) : (l.filter p).length < l.length := by
  induction l with
  | nil => cases ha
  | cons c tl ih =>
    rcases List.mem_cons.mp ha with rfl | ha'
    · simp only [List.filter_cons, hpa]
      exact Nat.lt_succ_of_le (List.length_filter_le p tl)
    · by_cases hc : p c
      · simpa [List.filter_cons, hc] using Nat.succ_lt_succ (ih ha')
      · simp only [List.filter_cons, Bool.not_eq_true] at hc
        simp only [List.filter_cons, hc]
        exact Nat.lt_trans (ih ha') (Nat.lt_succ_self _)

/-- In a list whose entries have pairwise distinct `f`-values, two members
with equal `f`-values are the same element. -/
theorem eq_of_pairwise_ne {α : Type} (f : α → Nat) {l : List α}
    (hp : l.Pairwise (fun x y => f x ≠ f y)) :
    ∀ {a b : α}, a ∈ l → b ∈ l → f a = f b → a = b := by
  induction l with
  | nil => intro a b ha; cases ha
  | cons c tl ih =>
    intro a b ha hb hf
    rcases List.mem_cons.mp ha with rfl | ha'
    · rcases List.mem_cons.mp hb with rfl | hb'
      · rfl
      · exact absurd hf ((List.pairwise_cons.mp hp).1 b hb')
    · rcases List.mem_cons.mp hb with rfl | hb'
      · exact absurd hf.symm ((List.pairwise_cons.mp hp).1 a ha')
      · exact ih (List.pairwise_cons.mp hp).2 ha' hb' hf

/-- With enough fuel, the `_allocate_vni` scan lands on a value outside
`used`. -/
theorem allocFrom_not_mem (used : List Nat) :
    ∀ fuel start, (used.filter (fun x => start ≤ x)).length < fuel →
      allocFrom used start fuel ∉ used := by
  intro fuel
  induction fuel with
  | zero => intro start h; omega
  | succ f ih =>
    intro start h
    unfold allocFrom
    split
    case isTrue hmem =>
      apply ih
      have hstep : used.filter (fun x => start + 1 ≤ x)
          = (used.filter (fun x => start ≤ x)).filter (fun x => start + 1 ≤ x) := by
        rw [List.filter_filter]
        apply List.filter_congr
        intro x _
        by_cases hx : start + 1 ≤ x
        · have hx' : start ≤ x := by omega
          simp [hx, hx']
        · simp [hx]
      have hin : start ∈ used.filter (fun x => start ≤ x) :=
        List.mem_filter.mpr ⟨hmem, by simp⟩
      have hlt : ((used.filter (fun x => start ≤ x)).filter
          (fun x => start + 1 ≤ x)).length
          < (used.filter (fun x => start ≤ x)).length :=
        length_filter_lt_of_mem hin (by simp)
      rw [hstep]
      omega
    case isFalse hmem => exact hmem

/-- `NetworkManager._allocate_vni` never returns a VNI used by an existing
network. -/
theorem allocateVni_fresh (networks : List Network) (nextVni : Nat) :
    ∀ n ∈ networks, (allocateVni networks nextVni).1 ≠ n.vni := by
  intro n hn heq
  have hfree : allocFrom ((networks.map (fun m => m.vni)).dedup) nextVni
      (((networks.map (fun m => m.vni)).dedup).length + 1)
      ∉ (networks.map (fun m => m.vni)).dedup := by
    apply allocFrom_not_mem
    exact Nat.lt_succ_of_le (List.length_filter_le _ _)
  apply hfree
  rw [List.mem_dedup]
  have halloc : (allocateVni networks nextVni).1
      = allocFrom ((networks.map (fun m => m.vni)).dedup) nextVni
          (((networks.map (fun m => m.vni)).dedup).length + 1) := rfl
  rw [← halloc, heq]
  exact List.mem_map.mpr ⟨n, hn, rfl⟩

/-- Membership in the unordered-pair enumeration implies membership of both
components. -/
theorem orderedPairs_mem : ∀ {l : List Nat} {a b : Nat},
    (a, b) ∈ orderedPairs l → a ∈ l ∧ b ∈ l := by
  intro l
  induction l with
  | nil => intro a b h; cases h
  | cons x xs ih =>
    intro a b h
    rcases List.mem_append.mp h with h1 | h2
    · rcases List.mem_map.mp h1 with ⟨y, hy, hxy⟩
      cases hxy
      exact ⟨List.mem_cons_self _ _, List.mem_cons_of_mem _ hy⟩
    · have := ih h2
      exact ⟨List.mem_cons_of_mem _ this.1, List.mem_cons_of_mem _ this.2⟩

end Recira

namespace Recira

theorem createTunnel_explicit_cases (env : Env) (vx : VxState) (a b v : Nat) :
    ((createTunnel env vx a b (some v)).1 = none ∧
     (createTunnel env vx a b (some v)).2.1 = vx) ∨
    (∃ t, (createTunnel env vx a b (some v)).1 = some t ∧
      t.id = vx.nextTunnelId ∧ t.vni = v ∧ t.srcSwitchId = a ∧ t.dstSwitchId = b ∧
      (createTunnel env vx a b (some v)).2.1
        = { vx with tunnels := vx.tunnels ++ [t],
                    nextTunnelId := vx.nextTunnelId + 1 }) := by
  unfold createTunnel
  split
  case h_1 srcSwitch dstSwitch hfs hfd =>
    simp only
    split
    case h_1 srcHost dstHost hhs hhd =>
      split
      · exact Or.inl ⟨rfl, rfl⟩
      · split
        · split
          · exact Or.inr ⟨_, rfl, rfl, rfl, rfl, rfl, rfl⟩
          · exact Or.inl ⟨rfl, rfl⟩
        · exact Or.inl ⟨rfl, rfl⟩
    case h_2 => exact Or.inl ⟨rfl, rfl⟩
  case h_2 => exact Or.inl ⟨rfl, rfl⟩

end Recira

namespace Recira

theorem createMesh_spec (env : Env) (v : Nat) :
    ∀ (pairs : List (Nat × Nat)) (vx : VxState), ∃ newTs : List Tunnel,
      (createMesh env v pairs vx).2.1.tunnels = vx.tunnels ++ newTs ∧
      (createMesh env v pairs vx).2.1.nextVni = vx.nextVni ∧
      vx.nextTunnelId ≤ (createMesh env v pairs vx).2.1.nextTunnelId ∧
      (∀ t ∈ newTs, t.vni = v ∧ (t.srcSwitchId, t.dstSwitchId) ∈ pairs ∧
        vx.nextTunnelId ≤ t.id ∧
        t.id < (createMesh env v pairs vx).2.1.nextTunnelId ∧
        t.id ∈ (createMesh env v pairs vx).1) ∧
      (∀ tid ∈ (createMesh env v pairs vx).1,
        vx.nextTunnelId ≤ tid ∧
        tid < (createMesh env v pairs vx).2.1.nextTunnelId) := by
  intro pairs
  induction pairs with
  | nil =>
    intro vx
    exact ⟨[], by simp [createMesh], rfl, le_refl _, by simp, by simp [createMesh]⟩
  | cons pd rest ih =>
    intro vx
    obtain ⟨s, d⟩ := pd
    rcases createTunnel_explicit_cases env vx s d v with
      ⟨hnone, hst⟩ | ⟨t, hsome, hid, hvni, hsrc, hdst, hst⟩
    · have hkey : createMesh env v ((s, d) :: rest) vx
        = ((createMesh env v rest vx).1, (createMesh env v rest vx).2.1,
           (createTunnel env vx s d (some v)).2.2
             ++ (createMesh env v rest vx).2.2) := by
        conv_lhs => rw [createMesh]
        rw [hst, hnone]
      have hk1 : (createMesh env v ((s, d) :: rest) vx).1
          = (createMesh env v rest vx).1 := by rw [hkey]
      have hk2 : (createMesh env v ((s, d) :: rest) vx).2.1
          = (createMesh env v rest vx).2.1 := by rw [hkey]
      obtain ⟨newTs, h1, h2, h3, h4, h5⟩ := ih vx
      refine ⟨newTs, ?_, ?_, ?_, ?_, ?_⟩
      · rw [hk2]; exact h1
      · rw [hk2]; exact h2
      · rw [hk2]; exact h3
      · intro u hu
        obtain ⟨c1, c2, c3, c4, c5⟩ := h4 u hu
        rw [hk1, hk2]
        exact ⟨c1, List.mem_cons_of_mem _ c2, c3, c4, c5⟩
      · intro tid htid
        rw [hk1] at htid
        rw [hk2]
        exact h5 tid htid
    · have hkey : createMesh env v ((s, d) :: rest) vx
        = (t.id :: (createMesh env v rest
              { vx with tunnels := vx.tunnels ++ [t],
                        nextTunnelId := vx.nextTunnelId + 1 }).1,
           (createMesh env v rest
              { vx with tunnels := vx.tunnels ++ [t],
                        nextTunnelId := vx.nextTunnelId + 1 }).2.1,
           (createTunnel env vx s d (some v)).2.2
             ++ (createMesh env v rest
              { vx with tunnels := vx.tunnels ++ [t],
                        nextTunnelId := vx.nextTunnelId + 1 }).2.2) := by
        conv_lhs => rw [createMesh]
        rw [hst, hsome]
      have hk1 : (createMesh env v ((s, d) :: rest) vx).1
          = t.id :: (createMesh env v rest
              { vx with tunnels := vx.tunnels ++ [t],
                        nextTunnelId := vx.nextTunnelId + 1 }).1 := by rw [hkey]
      have hk2 : (createMesh env v ((s, d) :: rest) vx).2.1
          = (createMesh env v rest
              { vx with tunnels := vx.tunnels ++ [t],
                        nextTunnelId := vx.nextTunnelId + 1 }).2.1 := by rw [hkey]
      obtain ⟨newTs, h1, h2, h3, h4, h5⟩ :=
        ih { vx with tunnels := vx.tunnels ++ [t],
                     nextTunnelId := vx.nextTunnelId + 1 }
      simp only at h1 h2 h3 h4 h5
      refine ⟨t :: newTs, ?_, ?_, ?_, ?_, ?_⟩
      · rw [hk2, h1]
        simp [List.append_assoc]
      · rw [hk2]; exact h2
      · rw [hk2]; omega
      · intro u hu
        rcases List.mem_cons.mp hu with rfl | hu'
        · refine ⟨hvni, ?_, ?_, ?_, ?_⟩
          · rw [hsrc, hdst]; exact List.mem_cons_self _ _
          · omega
          · rw [hk2]; omega
          · rw [hk1]; exact List.mem_cons_self _ _
        · obtain ⟨c1, c2, c3, c4, c5⟩ := h4 u hu'
          refine ⟨c1, List.mem_cons_of_mem _ c2, by omega, ?_, ?_⟩
          · rw [hk2]; exact c4
          · rw [hk1]; exact List.mem_cons_of_mem _ c5
      · intro tid htid
        rw [hk1] at htid
        rw [hk2]
        rcases List.mem_cons.mp htid with rfl | htid'
        · constructor
          · omega
          · omega
        · obtain ⟨c1, c2⟩ := h5 tid htid'
          exact ⟨by omega, c2⟩

end Recira

namespace Recira

theorem deleteTunnel_state (env : Env) (vx : VxState) (tid : Nat) :
    (deleteTunnel env vx tid).2.1
      = { vx with tunnels := vx.tunnels.filter (fun u => ¬ u.id = tid) } := by
  unfold deleteTunnel
  split
  case h_1 hfind =>
    have hall : ∀ u ∈ vx.tunnels, ¬ u.id = tid := by
      intro u hu
      have := List.find?_eq_none.mp hfind u hu
      simpa using this
    cases vx with
    | mk tns nid nv =>
      simp only
      congr 1
      symm
      apply List.filter_eq_self.mpr
      intro a ha
      simpa using hall a ha
  case h_2 t hfind =>
    split <;> rfl

theorem deleteTunnels_state (env : Env) :
    ∀ (tids : List Nat) (vx : VxState),
      (deleteTunnels env tids vx).1
        = { vx with tunnels := vx.tunnels.filter (fun u => ¬ u.id ∈ tids) } := by
  intro tids
  induction tids with
  | nil =>
    intro vx
    cases vx with
    | mk tns nid nv =>
      simp only [deleteTunnels]
      congr 1
      symm
      apply List.filter_eq_self.mpr
      intro a _
      simp
  | cons tid rest ih =>
    intro vx
    have hred : (deleteTunnels env (tid :: rest) vx).1
        = (deleteTunnels env rest (deleteTunnel env vx tid).2.1).1 := by
      conv_lhs => rw [deleteTunnels]
    rw [hred, ih, deleteTunnel_state]
    dsimp only
    simp only [List.filter_filter]
    congr 1
    apply List.filter_congr
    intro x _
    by_cases h1 : x.id = tid <;> by_cases h2 : x.id ∈ rest <;> simp [h1, h2]

end Recira

namespace Recira

theorem inv_init : Inv sysInit := by
  constructor <;> simp [sysInit, vxInit, netInit]

theorem createNetwork_cases (env : Env) (s : SysState) (name : String)
    (switchIds : List Nat) (vniArg : Option Nat) (subnet gateway : String) :
    (createNetwork env s name switchIds vniArg subnet gateway).2.1 = s ∨
    ∃ vni nextVni', (∀ n ∈ s.net.networks, n.vni ≠ vni) ∧
      (createNetwork env s name switchIds vniArg subnet gateway).2.1 =
        { vx := (createMesh env vni (orderedPairs switchIds) s.vx).2.1,
          net := { networks := s.net.networks ++
                     [{ id := s.net.nextNetworkId, name := name, vni := vni,
                        subnet := subnet, gateway := gateway,
                        switches := switchIds,
                        tunnels := (createMesh env vni (orderedPairs switchIds) s.vx).1 }],
                   nextNetworkId := s.net.nextNetworkId + 1,
                   nextVni := nextVni' } } := by
  unfold createNetwork
  by_cases hval : switchIds.all (fun sid =>
      ((getAllSwitches env.hosts).find? (fun sw => sw.id = sid)).isSome) = true
  · rw [if_pos hval]
    cases vniArg with
    | none =>
      right
      refine ⟨(allocateVni s.net.networks s.net.nextVni).1,
              (allocateVni s.net.networks s.net.nextVni).2, ?_, ?_⟩
      · intro n hn
        exact Ne.symm (allocateVni_fresh s.net.networks s.net.nextVni n hn)
      · rfl
    | some v =>
      by_cases hdup : s.net.networks.any (fun n => n.vni = v) = true
      · left
        simp only [hdup]
        rfl
      · right
        refine ⟨v, s.net.nextVni, ?_, ?_⟩
        · intro n hn heq
          apply hdup
          rw [List.any_eq_true]
          exact ⟨n, hn, by simp [heq]⟩
        · simp only [Bool.not_eq_true] at hdup
          simp only [hdup]
          rfl
  · rw [if_neg hval]
    left
    rfl

end Recira

namespace Recira

theorem inv_createNetwork (env : Env) (s : SysState) (hinv : Inv s)
    (name : String) (switchIds : List Nat) (vniArg : Option Nat)
    (subnet gateway : String) :
    Inv (createNetwork env s name switchIds vniArg subnet gateway).2.1 := by
  rcases createNetwork_cases env s name switchIds vniArg subnet gateway with
    heq | ⟨vni, nextVni', hfresh, heq⟩
  · rw [heq]; exact hinv
  · rw [heq]
    obtain ⟨newTs, m1, m2, m3, m4, m5⟩ :=
      createMesh_spec env vni (orderedPairs switchIds) s.vx
    constructor
    · -- vniDistinct
      dsimp only
      rw [List.pairwise_append]
      refine ⟨hinv.vniDistinct, by simp, ?_⟩
      intro a ha b hb
      simp only [List.mem_singleton] at hb
      subst hb
      exact hfresh a ha
    · -- idDistinct
      dsimp only
      rw [List.pairwise_append]
      refine ⟨hinv.idDistinct, by simp, ?_⟩
      intro a ha b hb
      simp only [List.mem_singleton] at hb
      subst hb
      exact Nat.ne_of_lt (hinv.netIdLt a ha)
    · -- netIdLt
      dsimp only
      intro n hn
      rcases List.mem_append.mp hn with hn' | hn'
      · exact Nat.lt_trans (hinv.netIdLt n hn') (Nat.lt_succ_self _)
      · simp only [List.mem_singleton] at hn'
        subst hn'
        exact Nat.lt_succ_self _
    · -- tidLt
      dsimp only
      intro n hn tid htid
      rcases List.mem_append.mp hn with hn' | hn'
      · exact Nat.lt_of_lt_of_le (hinv.tidLt n hn' tid htid) m3
      · simp only [List.mem_singleton] at hn'
        subst hn'
        exact (m5 tid htid).2
    · -- regIdLt
      dsimp only
      rw [m1]
      intro t ht
      rcases List.mem_append.mp ht with ht' | ht'
      · exact Nat.lt_of_lt_of_le (hinv.regIdLt t ht') m3
      · exact (m4 t ht').2.2.2.1
    · -- owned
      dsimp only
      rw [m1]
      intro t ht
      rcases List.mem_append.mp ht with ht' | ht'
      · obtain ⟨n, hn, hid⟩ := hinv.owned t ht'
        exact ⟨n, List.mem_append_left _ hn, hid⟩
      · refine ⟨_, List.mem_append_right _ (List.mem_singleton_self _), ?_⟩
        exact (m4 t ht').2.2.2.2
    · -- matchNet
      dsimp only
      rw [m1]
      intro n hn t ht hid
      rcases List.mem_append.mp hn with hn' | hn'
      · rcases List.mem_append.mp ht with ht' | ht'
        · exact hinv.matchNet n hn' t ht' hid
        · have h1 := (m4 t ht').2.2.1
          have h2 := hinv.tidLt n hn' t.id hid
          omega
      · simp only [List.mem_singleton] at hn'
        subst hn'
        rcases List.mem_append.mp ht with ht' | ht'
        · have h1 := hinv.regIdLt t ht'
          have h2 := (m5 t.id hid).1
          omega
        · obtain ⟨c1, c2, _, _, _⟩ := m4 t ht'
          have hp := orderedPairs_mem c2
          exact ⟨c1, hp.1, hp.2⟩

end Recira

namespace Recira

theorem inv_deleteNetwork (env : Env) (s : SysState) (hinv : Inv s) (nid : Nat) :
    Inv (deleteNetwork env s nid).2.1 := by
  unfold deleteNetwork
  split
  case h_1 => exact hinv
  case h_2 n0 hfind =>
    have hn0mem := List.mem_of_find?_eq_some hfind
    have hn0id : n0.id = nid := by simpa using List.find?_some hfind
    dsimp only
    rw [deleteTunnels_state]
    constructor
    · exact List.Pairwise.sublist (List.filter_sublist _) hinv.vniDistinct
    · exact List.Pairwise.sublist (List.filter_sublist _) hinv.idDistinct
    · intro n hn
      exact hinv.netIdLt n (List.mem_filter.mp hn).1
    · intro n hn tid htid
      exact hinv.tidLt n (List.mem_filter.mp hn).1 tid htid
    · intro t ht
      exact hinv.regIdLt t (List.mem_filter.mp ht).1
    · intro t ht
      obtain ⟨ht', hnot⟩ := List.mem_filter.mp ht
      have hnot' : ¬ t.id ∈ n0.tunnels := by simpa using hnot
      obtain ⟨n, hn, hid⟩ := hinv.owned t ht'
      have hnne : ¬ n.id = nid := by
        intro hc
        have : n = n0 := eq_of_pairwise_ne Network.id hinv.idDistinct hn hn0mem
          (by rw [hc, hn0id])
        subst this
        exact hnot' hid
      exact ⟨n, List.mem_filter.mpr ⟨hn, by simpa using hnne⟩, hid⟩
    · intro n hn t ht hid
      exact hinv.matchNet n (List.mem_filter.mp hn).1 t (List.mem_filter.mp ht).1 hid

end Recira

namespace Recira

theorem inv_addSwitch (env : Env) (s : SysState) (hinv : Inv s) (nid sid : Nat) :
    Inv (addSwitchToNetwork env s nid sid).2.1 := by
  unfold addSwitchToNetwork
  split
  case h_1 => exact hinv
  case h_2 n0 hfind =>
    have hn0mem := List.mem_of_find?_eq_some hfind
    have hn0id : n0.id = nid := by simpa using List.find?_some hfind
    split
    case isTrue => exact hinv
    case isFalse hsidnew =>
      split
      case isTrue => exact hinv
      case isFalse =>
        dsimp only
        obtain ⟨newTs, m1, m2, m3, m4, m5⟩ :=
          createMesh_spec env n0.vni (n0.switches.map (fun e => (sid, e))) s.vx
        have hqeq : ∀ q ∈ s.net.networks, q.id = nid → q = n0 := by
          intro q hq hqid
          exact eq_of_pairwise_ne Network.id hinv.idDistinct hq hn0mem
            (by rw [hqid, hn0id])
        constructor
        · rw [List.pairwise_map]
          refine hinv.vniDistinct.imp_of_mem ?_
          intro a b ha hb hab
          have hva : ∀ q ∈ s.net.networks,
              (if q.id = nid then
                { n0 with switches := n0.switches ++ [sid],
                          tunnels := n0.tunnels
                            ++ (createMesh env n0.vni
                                 (n0.switches.map (fun e => (sid, e))) s.vx).1 }
               else q).vni = q.vni := by
            intro q hq
            by_cases h : q.id = nid
            · rw [if_pos h, hqeq q hq h]
            · rw [if_neg h]
          rw [hva a ha, hva b hb]
          exact hab
        · rw [List.pairwise_map]
          refine hinv.idDistinct.imp_of_mem ?_
          intro a b ha hb hab
          have hva : ∀ q ∈ s.net.networks,
              (if q.id = nid then
                { n0 with switches := n0.switches ++ [sid],
                          tunnels := n0.tunnels
                            ++ (createMesh env n0.vni
                                 (n0.switches.map (fun e => (sid, e))) s.vx).1 }
               else q).id = q.id := by
            intro q hq
            by_cases h : q.id = nid
            · rw [if_pos h, hqeq q hq h]
            · rw [if_neg h]
          rw [hva a ha, hva b hb]
          exact hab
        · intro n hn
          obtain ⟨q, hq, rfl⟩ := List.mem_map.mp hn
          by_cases h : q.id = nid
          · rw [if_pos h]
            exact hinv.netIdLt n0 hn0mem
          · rw [if_neg h]
            exact hinv.netIdLt q hq
        · intro n hn tid htid
          obtain ⟨q, hq, rfl⟩ := List.mem_map.mp hn
          by_cases h : q.id = nid
          · rw [if_pos h] at htid
            rcases List.mem_append.mp htid with h1 | h1
            · exact Nat.lt_of_lt_of_le (hinv.tidLt n0 hn0mem tid h1) m3
            · exact (m5 tid h1).2
          · rw [if_neg h] at htid
            exact Nat.lt_of_lt_of_le (hinv.tidLt q hq tid htid) m3
        · rw [m1]
          intro t ht
          rcases List.mem_append.mp ht with h1 | h1
          · exact Nat.lt_of_lt_of_le (hinv.regIdLt t h1) m3
          · exact (m4 t h1).2.2.2.1
        · rw [m1]
          intro t ht
          rcases List.mem_append.mp ht with h1 | h1
          · obtain ⟨n, hn, hid⟩ := hinv.owned t h1
            by_cases h : n.id = nid
            · have hq0 := hqeq n hn h
              subst hq0
              refine ⟨_, List.mem_map_of_mem _ hn, ?_⟩
              rw [if_pos h]
              exact List.mem_append_left _ hid
            · refine ⟨_, List.mem_map_of_mem _ hn, ?_⟩
              rw [if_neg h]
              exact hid
          · refine ⟨_, List.mem_map_of_mem _ hn0mem, ?_⟩
            rw [if_pos hn0id]
            exact List.mem_append_right _ (m4 t h1).2.2.2.2
        · intro n hn t ht hid
          obtain ⟨q, hq, rfl⟩ := List.mem_map.mp hn
          rw [m1] at ht
          by_cases h : q.id = nid
          · have hq0 := hqeq q hq h
            subst hq0
            rw [if_pos h] at hid ⊢
            rcases List.mem_append.mp ht with ht' | ht'
            · rcases List.mem_append.mp hid with hid' | hid'
              · obtain ⟨c1, c2, c3⟩ := hinv.matchNet q hq t ht' hid'
                exact ⟨c1, List.mem_append_left _ c2, List.mem_append_left _ c3⟩
              · have hb1 := (m5 t.id hid').1
                have hb2 := hinv.regIdLt t ht'
                omega
            · obtain ⟨c1, c2, _, _, _⟩ := m4 t ht'
              obtain ⟨e, he, hpair⟩ := List.mem_map.mp c2
              have hp1 : sid = t.srcSwitchId := congrArg Prod.fst hpair
              have hp2 : e = t.dstSwitchId := congrArg Prod.snd hpair
              refine ⟨c1, ?_, ?_⟩
              · rw [← hp1]
                exact List.mem_append_right _ (List.mem_singleton_self _)
              · rw [← hp2]
                exact List.mem_append_left _ he
          · rw [if_neg h] at hid ⊢
            rcases List.mem_append.mp ht with ht' | ht'
            · exact hinv.matchNet q hq t ht' hid
            · have hb1 := (m4 t ht').2.2.1
              have hb2 := hinv.tidLt q hq t.id hid
              omega

theorem inv_delTunnelOp (env : Env) (s : SysState) (hinv : Inv s) (tid : Nat) :
    Inv { s with vx := (deleteTunnel env s.vx tid).2.1 } := by
  rw [deleteTunnel_state]
  constructor
  · exact hinv.vniDistinct
  · exact hinv.idDistinct
  · exact hinv.netIdLt
  · exact hinv.tidLt
  · intro t ht
    exact hinv.regIdLt t (List.mem_filter.mp ht).1
  · intro t ht
    exact hinv.owned t (List.mem_filter.mp ht).1
  · intro n hn t ht hid
    exact hinv.matchNet n hn t (List.mem_filter.mp ht).1 hid

theorem inv_step (env : Env) (s : SysState) (hinv : Inv s) (op : Op) :
    Inv (stepOp env s op) := by
  cases op with
  | createNet nm sw v su gw => exact inv_createNetwork env s hinv nm sw v su gw
  | deleteNet nid => exact inv_deleteNetwork env s hinv nid
  | addSwitch nid sid => exact inv_addSwitch env s hinv nid sid
  | delTunnel tid => exact inv_delTunnelOp env s hinv tid

theorem inv_foldl (env : Env) :
    ∀ (ops : List Op) (s : SysState), Inv s → Inv (ops.foldl (stepOp env) s) := by
  intro ops
  induction ops with
  | nil => intro s h; exact h
  | cons op rest ih =>
    intro s h
    exact ih (stepOp env s op) (inv_step env s h op)

theorem inv_run (env : Env) (ops : List Op) : Inv (runOps env ops) :=
  inv_foldl env ops sysInit inv_init

end Recira

namespace Recira

theorem createNetwork_dup_vni_rejected (env : Env) (s : SysState)
    (name : String) (sw : List Nat) (v : Nat) (subnet gateway : String)
    (hdup : s.net.networks.any (fun n => n.vni = v) = true) :
    (createNetwork env s name sw (some v) subnet gateway).1 = none ∧
    (createNetwork env s name sw (some v) subnet gateway).2.1 = s := by
  unfold createNetwork
  by_cases hval : sw.all (fun sid =>
      ((getAllSwitches env.hosts).find? (fun sw => sw.id = sid)).isSome) = true
  · rw [if_pos hval]
    simp only [hdup]
    exact ⟨rfl, rfl⟩
  · rw [if_neg hval]
    exact ⟨rfl, rfl⟩

theorem createNetwork_auto_vni_fresh (env : Env) (s : SysState)
    (name : String) (sw : List Nat) (subnet gateway : String) (nw : Network)
    (hsome : (createNetwork env s name sw none subnet gateway).1 = some nw) :
    ∀ n ∈ s.net.networks, nw.vni ≠ n.vni := by
  unfold createNetwork at hsome
  by_cases hval : sw.all (fun sid =>
      ((getAllSwitches env.hosts).find? (fun sw => sw.id = sid)).isSome) = true
  · rw [if_pos hval] at hsome
    dsimp only at hsome
    have hnw := (Option.some.inj hsome).symm
    intro n hn
    rw [hnw]
    exact allocateVni_fresh s.net.networks s.net.nextVni n hn
  · rw [if_neg hval] at hsome
    cases hsome

/-- C2: no two networks ever share a VNI along any operation sequence; an
explicit duplicate VNI is rejected with the state unchanged; an automatic
allocation avoids every VNI of an existing network. -/
theorem C2_vni_globally_unique (env : Env) (ops : List Op) :
    ((runOps env ops).net.networks.Pairwise (fun a b => a.vni ≠ b.vni)) ∧
    (∀ name sw v subnet gateway, ∀ n ∈ (runOps env ops).net.networks,
       n.vni = v →
       (createNetwork env (runOps env ops) name sw (some v) subnet gateway).1
         = none ∧
       (createNetwork env (runOps env ops) name sw (some v) subnet gateway).2.1
         = runOps env ops) ∧
    (∀ name sw subnet gateway nw,
       (createNetwork env (runOps env ops) name sw none subnet gateway).1
         = some nw →
       ∀ n ∈ (runOps env ops).net.networks, nw.vni ≠ n.vni) := by
  refine ⟨(inv_run env ops).vniDistinct, ?_, ?_⟩
  · intro name sw v subnet gateway n hn hv
    exact createNetwork_dup_vni_rejected env (runOps env ops) name sw v subnet
      gateway (List.any_eq_true.mpr ⟨n, hn, by simp [hv]⟩)
  · intro name sw subnet gateway nw hsome n hn
    exact createNetwork_auto_vni_fresh env (runOps env ops) name sw subnet
      gateway nw hsome n hn

/-- C1 (amended): for every reachable state, a registry tunnel whose id a
network records has that network's VNI and both endpoints in its switch set,
and conversely a registry tunnel carrying a network's VNI is recorded by that
network; a network's tunnel list may however also hold ids of tunnels no
longer in the registry, because `delete_tunnel` does not update networks. -/
theorem C1_network_tunnel_correspondence (env : Env) (ops : List Op)
    (n : Network) (t : Tunnel)
    (hn : n ∈ (runOps env ops).net.networks)
    (ht : t ∈ (runOps env ops).vx.tunnels) :
    (t.id ∈ n.tunnels →
       t.vni = n.vni ∧ t.srcSwitchId ∈ n.switches ∧
       t.dstSwitchId ∈ n.switches) ∧
    (t.vni = n.vni → t.id ∈ n.tunnels) := by
  have hinv := inv_run env ops
  constructor
  · intro hid
    exact hinv.matchNet n hn t ht hid
  · intro hvni
    obtain ⟨n', hn', hid⟩ := hinv.owned t ht
    have hv' := (hinv.matchNet n' hn' t ht hid).1
    have heq : n' = n :=
      eq_of_pairwise_ne Network.vni hinv.vniDistinct hn' hn (by rw [← hv', hvni])
    rw [← heq]
    exact hid

/-- C1 witness: the correspondence instantiated in the two-host fixture after
one network creation. -/
theorem C1_correspondence_witness :
    (sampleTun.id ∈ sampleNet.tunnels →
       sampleTun.vni = sampleNet.vni ∧ sampleTun.srcSwitchId ∈ sampleNet.switches ∧
       sampleTun.dstSwitchId ∈ sampleNet.switches) ∧
    (sampleTun.vni = sampleNet.vni → sampleTun.id ∈ sampleNet.tunnels) :=
  C1_network_tunnel_correspondence env2 [Op.createNet "n" [1, 2] (some 5) "" ""]
    sampleNet sampleTun (by decide) (by decide)

/-- C1 counterexample: after `create_network` over two switches followed by
`delete_tunnel` of the created tunnel, the network still records tunnel id 1
while the registry holds no tunnel at all, so the recorded set does not
correspond to the registry. -/
theorem C1_counterexample :
    ((runOps env2 [Op.createNet "n" [1, 2] (some 5) "" "",
        Op.delTunnel 1]).net.networks.map (fun n => n.tunnels)) = [[1]] ∧
    (runOps env2 [Op.createNet "n" [1, 2] (some 5) "" "",
        Op.delTunnel 1]).vx.tunnels = [] := by
  constructor <;> rfl

end Recira

namespace Recira

theorem discoverPort_nextVni_le (env : Env) (host : Host) (p : VxPort)
    (acc : DiscoverAcc) :
    acc.vx.nextVni ≤ (discoverPort env host p acc).vx.nextVni := by
  unfold discoverPort
  by_cases hk : (p.vni, (sortPair (getVxlanIp host) p.remoteIp).1,
      (sortPair (getVxlanIp host) p.remoteIp).2) ∈ acc.seen
  · simp [hk]
  · simp only [hk, if_false]
    split
    · exact Nat.le_refl _
    · split
      · dsimp only
        split <;> omega
      · exact Nat.le_refl _

theorem discoverHostPorts_nextVni_le (env : Env) (host : Host) :
    ∀ (ps : List VxPort) (acc : DiscoverAcc),
      acc.vx.nextVni ≤ (discoverHostPorts env host ps acc).vx.nextVni := by
  intro ps
  induction ps with
  | nil => intro acc; exact Nat.le_refl _
  | cons p rest ih =>
    intro acc
    exact Nat.le_trans (discoverPort_nextVni_le env host p acc)
      (ih (discoverPort env host p acc))

theorem discoverHosts_nextVni_le (env : Env) :
    ∀ (hs : List Host) (acc : DiscoverAcc),
      acc.vx.nextVni ≤ (discoverHosts env hs acc).vx.nextVni := by
  intro hs
  induction hs with
  | nil => intro acc; exact Nat.le_refl _
  | cons h rest ih =>
    intro acc
    exact Nat.le_trans
      (discoverHostPorts_nextVni_le env h (env.vxlanPorts h.id) acc)
      (ih (discoverHostPorts env h (env.vxlanPorts h.id) acc))

/-- C3 (amended): when `vni` is omitted, `create_tunnel` assigns the bare
counter value (started at 100) and increments it, with no check against VNIs
already in use by tunnels or networks; discovery only ever advances the
counter. -/
theorem C3_vni_counter_allocation (env : Env) (vx : VxState) (a b : Nat) :
    (∀ t, (createTunnel env vx a b none).1 = some t →
       t.vni = vx.nextVni ∧
       (createTunnel env vx a b none).2.1.nextVni = vx.nextVni + 1) ∧
    vx.nextVni ≤ (discoverTunnels env vx).2.nextVni := by
  constructor
  · intro t
    unfold createTunnel
    split
    case h_1 srcSwitch dstSwitch hfs hfd =>
      dsimp only
      split
      case h_1 srcHost dstHost hhs hhd =>
        split
        · intro h; cases h
        · split
          · split
            · intro h
              have ht := Option.some.inj h
              constructor
              · rw [← ht]
              · rfl
            · intro h; cases h
          · intro h; cases h
      case h_2 => intro h; cases h
    case h_2 => intro h; cases h
  · exact discoverHosts_nextVni_le env env.hosts { seen := [], vx := vx, count := 0 }

/-- C3 counterexample: with the counter at its initial value 100, first
create a tunnel with explicit VNI 100; a subsequent `create_tunnel` with
`vni` omitted assigns 100 again, a value already in use by a known tunnel —
the claimed skipping does not happen. -/
theorem C3_counterexample :
    ((createTunnel env2 ((createTunnel env2 vxInit 1 2 (some 100)).2.1)
        1 2 none).1.map (fun t => t.vni)) = some 100 ∧
    ((createTunnel env2 vxInit 1 2 (some 100)).2.1.tunnels.map
        (fun t => t.vni)) = [100] := by
  constructor <;> rfl

/-- C4 (amended): the minimum-switch-count check lives in the HTTP handler,
which rejects fewer than two switches before the manager is called, leaving
the state unchanged; `NetworkManager.create_network` itself has no such
check. -/
theorem C4_handler_rejects_small_networks (env : Env) (s : SysState)
    (name : String) (sw : List Nat) (vniArg : Option Nat)
    (subnet gateway : String) (hname : ¬ name = "") (hlen : sw.length < 2) :
    handleNetworksCreate env s name sw vniArg subnet gateway
      = (some "Network requires at least 2 switches", none, s) := by
  unfold handleNetworksCreate
  rw [if_neg hname, if_pos (Or.inr hlen)]

/-- C4 witness: the handler rejection at a concrete one-switch request. -/
theorem C4_handler_witness :
    handleNetworksCreate env1 sysInit "solo" [1] none "" ""
      = (some "Network requires at least 2 switches", none, sysInit) :=
  C4_handler_rejects_small_networks env1 sysInit "solo" [1] none "" ""
    (by decide) (by decide)

/-- C4 counterexample: calling the network manager's `create_network`
directly with a single resolvable switch is not rejected: a network record is
created and stored (and the persist step runs), contradicting the claim that
the manager rejects fewer than two switches. -/
theorem C4_counterexample :
    ((createNetwork env1 sysInit "solo" [1] none "" "").1.map
        (fun n => n.id)) = some 1 ∧
    (createNetwork env1 sysInit "solo" [1] none "" "").2.1.net.networks.length
      = 1 ∧
    Event.persistNetworks ∈ (createNetwork env1 sysInit "solo" [1] none "" "").2.2 := by
  refine ⟨rfl, rfl, ?_⟩
  decide

end Recira

namespace Recira

theorem loadHostEntry_mono (probes : Nat → Probes) (acc : List Host)
    (entry : Nat × SavedHost) {h : Host} (hmem : h ∈ acc) :
    h ∈ loadHostEntry probes acc entry := by
  unfold loadHostEntry
  dsimp only
  split
  · exact hmem
  · split
    · split
      · exact List.mem_append_left _ hmem
      · exact hmem
    · exact hmem

theorem foldl_loadHostEntry_mono (probes : Nat → Probes) :
    ∀ (l : List (Nat × SavedHost)) (acc : List Host) {h : Host}, h ∈ acc →
      h ∈ l.foldl (loadHostEntry probes) acc := by
  intro l
  induction l with
  | nil => intro acc h hmem; exact hmem
  | cons e rest ih =>
    intro acc h hmem
    exact ih (loadHostEntry probes acc e) (loadHostEntry_mono probes acc e hmem)

theorem loadHostEntry_hit (probes : Nat → Probes) (acc : List Host)
    (k : Nat) (hd : SavedHost) (i p : String)
    (htype : ¬ hd.type = "localhost")
    (hip : orStr hd.managementIp hd.ip = some i) (hine : ¬ i = "")
    (hpw : hd.sshPassword = some p) (hpne : ¬ p = "") :
    loadHostEntry probes acc (k, hd)
      = acc ++ [reconnectHost k i (hd.sshUser.getD "root") p hd.vxlanIp
                  hd.hostname (probes k)] := by
  unfold loadHostEntry
  dsimp only
  rw [if_neg htype]
  simp only [hip, hpw]
  rw [if_pos ⟨hine, hpne⟩]

/-- C5 (amended): a persisted remote host with an address and password is
always restored into the registry — with `status = 'online'` whatever the
re-probe outcomes — and stays enumerable through `get_all_hosts`; the code
never assigns an `unreachable` status. -/
theorem C5_load_restores_online (saved : List (Nat × SavedHost))
    (nextId : Nat) (probes : Nat → Probes) (k : Nat) (hd : SavedHost)
    (i p : String)
    (hmem : (k, hd) ∈ saved) (htype : ¬ hd.type = "localhost")
    (hip : orStr hd.managementIp hd.ip = some i) (hine : ¬ i = "")
    (hpw : hd.sshPassword = some p) (hpne : ¬ p = "") :
    ∃ h ∈ (loadConfig saved nextId probes).hosts,
      h.id = k ∧ h.status = "online" ∧
      { h with sshPassword := "" } ∈ getAllHosts (loadConfig saved nextId probes) := by
  have hkey : ∀ acc : List Host, (k, hd) ∈ saved →
      reconnectHost k i (hd.sshUser.getD "root") p hd.vxlanIp hd.hostname (probes k)
        ∈ saved.foldl (loadHostEntry probes) acc := by
    clear hmem
    induction saved with
    | nil => intro acc hmem; cases hmem
    | cons e rest ih =>
      intro acc hmem
      rcases List.mem_cons.mp hmem with heq | hmem'
      · subst heq
        simp only [List.foldl_cons]
        apply foldl_loadHostEntry_mono
        rw [loadHostEntry_hit probes acc k hd i p htype hip hine hpw hpne]
        exact List.mem_append_right _ (List.mem_singleton_self _)
      · simp only [List.foldl_cons]
        exact ih (loadHostEntry probes acc e) hmem'
  have hh := hkey [] hmem
  refine ⟨reconnectHost k i (hd.sshUser.getD "root") p hd.vxlanIp hd.hostname
    (probes k), ?_, rfl, rfl, ?_⟩
  · exact hh
  · exact List.mem_map_of_mem _ hh

/-- C5 witness: a concrete persisted host none of whose probes answers is
restored with status `online` and listed. -/
theorem C5_load_witness :
    ∃ h ∈ (loadConfig [(3, savedHost1)] 4 deadProbes).hosts,
      h.id = 3 ∧ h.status = "online" ∧
      { h with sshPassword := "" } ∈ getAllHosts (loadConfig [(3, savedHost1)] 4 deadProbes) :=
  C5_load_restores_online [(3, savedHost1)] 4 deadProbes 3 savedHost1
    "10.0.0.5" "pw" (by decide) (by decide) (by decide) (by decide)
    (by decide) (by decide)

/-- C5 counterexample: that same persisted host that answers no re-probe is
restored with status `"online"`, not `"unreachable"` as the claim states —
the registry after load lists exactly one host and its status is `online`. -/
theorem C5_counterexample :
    ((loadConfig [(3, savedHost1)] 4 deadProbes).hosts.map (fun h => h.status))
      = ["online"] ∧
    ∀ h ∈ (loadConfig [(3, savedHost1)] 4 deadProbes).hosts,
      ¬ h.status = "unreachable" := by
  constructor
  · rfl
  · decide

end Recira

namespace Recira

theorem vxExtend_nil (vx : VxState) : vxExtend vx [] = vx := by
  simp [vxExtend, withIds, vniAdvance]

theorem withIds_append (ds1 : List Tunnel) :
    ∀ (n : Nat) (ds2 : List Tunnel),
      withIds n (ds1 ++ ds2) = withIds n ds1 ++ withIds (n + ds1.length) ds2 := by
  induction ds1 with
  | nil => intro n ds2; simp [withIds]
  | cons t rest ih =>
    intro n ds2
    have h1 : withIds n ((t :: rest) ++ ds2)
        = { t with id := n } :: withIds (n + 1) (rest ++ ds2) := rfl
    have h2 : withIds n (t :: rest)
        = { t with id := n } :: withIds (n + 1) rest := rfl
    rw [h1, ih (n + 1) ds2, h2]
    have hidx : n + (t :: rest).length = n + 1 + rest.length := by
      simp only [List.length_cons]
      omega
    rw [hidx]
    rfl

theorem vniAdvance_append (ds1 : List Tunnel) :
    ∀ (nv : Nat) (ds2 : List Tunnel),
      vniAdvance nv (ds1 ++ ds2) = vniAdvance (vniAdvance nv ds1) ds2 := by
  induction ds1 with
  | nil => intro nv ds2; rfl
  | cons t rest ih =>
    intro nv ds2
    simp only [List.cons_append, vniAdvance]
    exact ih _ ds2

theorem vxExtend_append (vx : VxState) (ds1 ds2 : List Tunnel) :
    vxExtend vx (ds1 ++ ds2) = vxExtend (vxExtend vx ds1) ds2 := by
  unfold vxExtend
  simp only [withIds_append, vniAdvance_append, List.length_append,
    List.append_assoc]
  rw [← Nat.add_assoc]

theorem discoverPort_eq (env : Env) (host : Host) (p : VxPort)
    (seen : List (Nat × String × String)) (vx : VxState) (c : Nat) :
    discoverPort env host p ⟨seen, vx, c⟩
      = ⟨(discoverPortPure env host p seen).1,
         vxExtend vx (discoverPortPure env host p seen).2,
         c + (discoverPortPure env host p seen).2.length⟩ := by
  unfold discoverPort discoverPortPure
  dsimp only
  by_cases hk : (p.vni, (sortPair (getVxlanIp host) p.remoteIp).1,
      (sortPair (getVxlanIp host) p.remoteIp).2) ∈ seen
  · rw [if_pos hk, if_pos hk]
    simp [vxExtend_nil]
  · rw [if_neg hk, if_neg hk]
    split
    · simp [vxExtend_nil]
    · split
      · rfl
      · simp [vxExtend_nil]

theorem discoverHostPorts_eq (env : Env) (host : Host) :
    ∀ (ps : List VxPort) (seen : List (Nat × String × String))
      (vx : VxState) (c : Nat),
      discoverHostPorts env host ps ⟨seen, vx, c⟩
        = ⟨(discoverHostPortsPure env host ps seen).1,
           vxExtend vx (discoverHostPortsPure env host ps seen).2,
           c + (discoverHostPortsPure env host ps seen).2.length⟩ := by
  intro ps
  induction ps with
  | nil =>
    intro seen vx c
    simp [discoverHostPorts, discoverHostPortsPure, vxExtend_nil]
  | cons p rest ih =>
    intro seen vx c
    have h1 : discoverHostPorts env host (p :: rest) ⟨seen, vx, c⟩
        = discoverHostPorts env host rest (discoverPort env host p ⟨seen, vx, c⟩) := rfl
    rw [h1, discoverPort_eq, ih]
    have h2 : discoverHostPortsPure env host (p :: rest) seen
        = ((discoverHostPortsPure env host rest (discoverPortPure env host p seen).1).1,
           (discoverPortPure env host p seen).2
             ++ (discoverHostPortsPure env host rest (discoverPortPure env host p seen).1).2) := rfl
    rw [h2]
    simp only [vxExtend_append, List.length_append]
    congr 1
    omega

theorem discoverHosts_eq (env : Env) :
    ∀ (hs : List Host) (seen : List (Nat × String × String))
      (vx : VxState) (c : Nat),
      discoverHosts env hs ⟨seen, vx, c⟩
        = ⟨(discoverHostsPure env hs seen).1,
           vxExtend vx (discoverHostsPure env hs seen).2,
           c + (discoverHostsPure env hs seen).2.length⟩ := by
  intro hs
  induction hs with
  | nil =>
    intro seen vx c
    simp [discoverHosts, discoverHostsPure, vxExtend_nil]
  | cons h rest ih =>
    intro seen vx c
    have h1 : discoverHosts env (h :: rest) ⟨seen, vx, c⟩
        = discoverHosts env rest
            (discoverHostPorts env h (env.vxlanPorts h.id) ⟨seen, vx, c⟩) := rfl
    rw [h1, discoverHostPorts_eq, ih]
    have h2 : discoverHostsPure env (h :: rest) seen
        = ((discoverHostsPure env rest
              (discoverHostPortsPure env h (env.vxlanPorts h.id) seen).1).1,
           (discoverHostPortsPure env h (env.vxlanPorts h.id) seen).2
             ++ (discoverHostsPure env rest
                  (discoverHostPortsPure env h (env.vxlanPorts h.id) seen).1).2) := rfl
    rw [h2]
    simp only [vxExtend_append, List.length_append]
    congr 1
    omega

theorem discoverTunnels_eq (env : Env) (vx : VxState) :
    (discoverTunnels env vx).2 = vxExtend vx (discoverPure env) ∧
    (discoverTunnels env vx).1 = (discoverPure env).length := by
  unfold discoverTunnels discoverPure
  rw [discoverHosts_eq]
  constructor
  · rfl
  · dsimp only
    omega

/-- C6 (amended): one discovery run appends `discoverPure env` — a pure
function of the host and bridge state — with fresh consecutive ids; running
discovery a second time with no intervening change appends the very same
records again (differing only in the assigned tunnel ids) instead of leaving
the registry unchanged.  The discovered tunnel set modulo `tunnel_id` is
stable, but the registry's entries double rather than stay fixed. -/
theorem C6_discovery_second_run_duplicates (env : Env) (vx : VxState) :
    (discoverTunnels env vx).2.tunnels
      = vx.tunnels ++ withIds vx.nextTunnelId (discoverPure env) ∧
    (discoverTunnels env (discoverTunnels env vx).2).2.tunnels
      = vx.tunnels ++ withIds vx.nextTunnelId (discoverPure env)
          ++ withIds (vx.nextTunnelId + (discoverPure env).length)
              (discoverPure env) := by
  have h1 := (discoverTunnels_eq env vx).1
  have h2 := (discoverTunnels_eq env (discoverTunnels env vx).2).1
  constructor
  · rw [h1]
    rfl
  · rw [h2, h1]
    rfl

/-- C6 counterexample: in the two-host fixture with one out-of-band tunnel,
one discovery run yields a registry with a single tunnel, but a second run
over unchanged host state yields two entries — not the same tunnel set as
running it once, under any renaming of tunnel ids. -/
theorem C6_counterexample :
    (discoverTunnels env2 (discoverTunnels env2 vxInit).2).2.tunnels.length = 2 ∧
    (discoverTunnels env2 vxInit).2.tunnels.length = 1 := by
  constructor <;> rfl

end Recira

namespace Recira

/-- C7: evaluating the `/api/networks/delete` handler at the failing input —
network 1 exists with one tunnel and DHCP enabled for it.  The handler's
DHCP-disable attempt aborts with "No SSH credentials available for host"
(because `DHCPManager._get_host_credentials` reads the `username`/`password`
dict keys, which host records never carry — they store
`ssh_user`/`ssh_password`, and `get_all_hosts` strips the password), so the
`DhcpConfig` survives and no DHCP cleanup command is issued, while the
network record and its tunnels are still deleted. -/
theorem C7_delete_network_dhcp_not_disabled :
    (handleNetworksDelete env2 fsC7 1).1 = true ∧
    (handleNetworksDelete env2 fsC7 1).2.1.sys.net.networks = [] ∧
    (handleNetworksDelete env2 fsC7 1).2.1.dhcp = [(1, dhcpCfg1)] ∧
    (disableDhcp env2.hosts fsC7.dhcp 1 none none).1
      = { success := false, message := "No SSH credentials available for host" } ∧
    (handleNetworksDelete env2 fsC7 1).2.2
      = [Event.delPort 1 "br0" "vxlan5_2", Event.delPort 2 "br0" "vxlan5_1",
         Event.persistNetworks] := by
  refine ⟨rfl, rfl, rfl, rfl, rfl⟩

/-- C8: when the VXLAN port add succeeds on the source bridge and the
symmetric add fails on the destination bridge, `create_tunnel` issues a
deletion of the source port (rollback), reports failure, and leaves the
tunnel registry unchanged. -/
theorem C8_create_tunnel_rollback (env : Env) (vx : VxState) (a b : Nat)
    (vniArg : Option Nat) (srcSw dstSw : Switch) (srcH dstH : Host)
    (hfs : (getAllSwitches env.hosts).find? (fun s => s.id = a) = some srcSw)
    (hfd : (getAllSwitches env.hosts).find? (fun s => s.id = b) = some dstSw)
    (hhs : getHostById env srcSw.hostId = some srcH)
    (hhd : getHostById env dstSw.hostId = some dstH)
    (hsi : ¬ getVxlanIp srcH = "") (hdi : ¬ getVxlanIp dstH = "")
    (hok : env.addPortOk srcH.id srcSw.name
        (vxPortName (vniArg.getD vx.nextVni) (getVxlanIp dstH)) = true)
    (hfail : env.addPortOk dstH.id dstSw.name
        (vxPortName (vniArg.getD vx.nextVni) (getVxlanIp srcH)) = false) :
    (createTunnel env vx a b vniArg).1 = none ∧
    (createTunnel env vx a b vniArg).2.1.tunnels = vx.tunnels ∧
    (createTunnel env vx a b vniArg).2.2 =
      [Event.addPort srcH.id srcSw.name
          (vxPortName (vniArg.getD vx.nextVni) (getVxlanIp dstH))
          (getVxlanIp dstH) (vniArg.getD vx.nextVni),
       Event.addPort dstH.id dstSw.name
          (vxPortName (vniArg.getD vx.nextVni) (getVxlanIp srcH))
          (getVxlanIp srcH) (vniArg.getD vx.nextVni),
       Event.delPort srcH.id srcSw.name
          (vxPortName (vniArg.getD vx.nextVni) (getVxlanIp dstH))] := by
  unfold createTunnel
  rw [hfs, hfd]
  dsimp only
  cases vniArg with
  | none =>
    dsimp only [Option.getD] at hok hfail ⊢
    rw [hhs, hhd]
    dsimp only
    rw [if_neg (by simp [hsi, hdi]), if_pos hok, if_neg (by simp [hfail])]
    exact ⟨rfl, rfl, rfl⟩
  | some v =>
    dsimp only [Option.getD] at hok hfail ⊢
    rw [hhs, hhd]
    dsimp only
    rw [if_neg (by simp [hsi, hdi]), if_pos hok, if_neg (by simp [hfail])]
    exact ⟨rfl, rfl, rfl⟩

/-- C8 witness: the rollback instantiated in the fixture where the add on
host 2 fails. -/
theorem C8_rollback_witness :
    (createTunnel envFail vxInit 1 2 (some 7)).1 = none ∧
    (createTunnel envFail vxInit 1 2 (some 7)).2.1.tunnels = vxInit.tunnels ∧
    (createTunnel envFail vxInit 1 2 (some 7)).2.2 =
      [Event.addPort hostA.id switchA.name
          (vxPortName ((some 7).getD vxInit.nextVni) (getVxlanIp hostB))
          (getVxlanIp hostB) ((some 7).getD vxInit.nextVni),
       Event.addPort hostB.id switchB.name
          (vxPortName ((some 7).getD vxInit.nextVni) (getVxlanIp hostA))
          (getVxlanIp hostA) ((some 7).getD vxInit.nextVni),
       Event.delPort hostA.id switchA.name
          (vxPortName ((some 7).getD vxInit.nextVni) (getVxlanIp hostB))] :=
  C8_create_tunnel_rollback envFail vxInit 1 2 (some 7) switchA switchB
    hostA hostB rfl rfl rfl rfl (by decide) (by decide) rfl rfl

end Recira

namespace Recira

theorem resolveDhcpCreds_explicit (hosts : List Host) (hostIp : String)
    (u : Option String) (pw : String) (hpw : ¬ pw = "") :
    (resolveDhcpCreds hosts hostIp u (some pw)).2 = pw := by
  unfold resolveDhcpCreds
  dsimp only [Option.getD]
  rw [if_neg hpw]

theorem addResList_append_new (mac ip hostname : String) :
    ∀ l : List Reservation, (∀ r ∈ l, ¬ r.mac = mac) →
      addResList mac ip hostname l
        = l ++ [{ mac := mac, ip := ip, hostname := hostname }] := by
  intro l
  induction l with
  | nil => intro _; rfl
  | cons r rest ih =>
    intro h
    unfold addResList
    rw [if_neg (h r (List.mem_cons_self _ _)),
        ih (fun x hx => h x (List.mem_cons_of_mem _ hx))]
    rfl

theorem addResList_update_last (mac ip hostname ip' hostname' : String) :
    ∀ l : List Reservation, (∀ r ∈ l, ¬ r.mac = mac) →
      addResList mac ip' hostname'
          (l ++ [{ mac := mac, ip := ip, hostname := hostname }])
        = l ++ [{ mac := mac, ip := ip', hostname := hostname' }] := by
  intro l
  induction l with
  | nil =>
    intro _
    show addResList mac ip' hostname'
        [{ mac := mac, ip := ip, hostname := hostname }]
      = [{ mac := mac, ip := ip', hostname := hostname' }]
    unfold addResList
    rw [if_pos rfl]
  | cons r rest ih =>
    intro h
    have hstep : (r :: rest)
          ++ [{ mac := mac, ip := ip, hostname := hostname }]
        = r :: (rest ++ [{ mac := mac, ip := ip, hostname := hostname }]) := rfl
    rw [hstep]
    unfold addResList
    rw [if_neg (h r (List.mem_cons_self _ _)),
        ih (fun x hx => h x (List.mem_cons_of_mem _ hx))]
    rfl

theorem filter_mac_single (mac ip hostname : String) (l : List Reservation)
    (h : ∀ r ∈ l, ¬ r.mac = mac) :
    (l ++ [({ mac := mac, ip := ip, hostname := hostname } : Reservation)]).filter
        (fun r => r.mac = mac)
      = [{ mac := mac, ip := ip, hostname := hostname }] := by
  rw [List.filter_append]
  have h1 : l.filter (fun r => r.mac = mac) = [] := by
    rw [List.filter_eq_nil_iff]
    intro r hr
    simpa using h r hr
  rw [h1]
  simp

theorem find?_replace (nid : Nat) (c' : DhcpConfig) :
    ∀ (l : List (Nat × DhcpConfig)) (q : Nat × DhcpConfig),
      l.find? (fun p => p.1 = nid) = some q →
      (l.map (fun p => if p.1 = nid then (p.1, c') else p)).find?
          (fun p => p.1 = nid) = some (nid, c') := by
  intro l
  induction l with
  | nil => intro q h; cases h
  | cons a rest ih =>
    intro q h
    by_cases ha : a.1 = nid
    · have hmap : (a :: rest).map (fun p => if p.1 = nid then (p.1, c') else p)
          = (a.1, c') :: rest.map (fun p => if p.1 = nid then (p.1, c') else p) := by
        simp [ha]
      rw [hmap]
      rw [List.find?_cons_of_pos _ (by simp [ha])]
      rw [ha]
    · have hmap : (a :: rest).map (fun p => if p.1 = nid then (p.1, c') else p)
          = a :: rest.map (fun p => if p.1 = nid then (p.1, c') else p) := by
        simp [ha]
      rw [hmap]
      rw [List.find?_cons_of_neg _ (by simp [ha])]
      rw [List.find?_cons_of_neg _ (by simp [ha])] at h
      exact ih q h

/-- The updated config `add_reservation` stores for network `nid`. -/
def resUpdated (c : DhcpConfig) (mac ip hostname : String) : DhcpConfig :=
  { c with reservations := addResList (normalizeMac mac) ip hostname c.reservations }

/-- What a successful `add_reservation` does to the result and the stored
configs, whatever the two remote exit codes are. -/
theorem addReservation_state (hosts : List Host) (networks : List Network)
    (dhcp : List (Nat × DhcpConfig)) (nid : Nat) (mac ip hostname : String)
    (u : Option String) (pw : String) (rcW rcR : Int) (c : DhcpConfig)
    (hfind : dhcp.find? (fun p => p.1 = nid) = some (nid, c))
    (hpw : ¬ pw = "") :
    (addReservation hosts networks dhcp nid mac ip hostname u (some pw) rcW rcR).1.success
      = true ∧
    (addReservation hosts networks dhcp nid mac ip hostname u (some pw) rcW rcR).2.1
      = dhcp.map (fun q =>
          if q.1 = nid then (q.1, resUpdated c mac ip hostname) else q) ∧
    Event.persistDhcp
      ∈ (addReservation hosts networks dhcp nid mac ip hostname u (some pw) rcW rcR).2.2 := by
  unfold addReservation
  rw [hfind]
  dsimp only
  rw [if_neg (by rw [resolveDhcpCreds_explicit hosts c.hostIp u pw hpw]; exact hpw)]
  refine ⟨rfl, rfl, ?_⟩
  exact List.mem_append_right _ (List.mem_singleton_self _)

/-- C10: with DHCP enabled for the network and a password supplied,
`add_reservation` reports success, updates the stored `DhcpConfig` and
persists it, for every exit code of the remote config rewrite and dnsmasq
restart — the remote failures are silently ignored. -/
theorem C10_add_reservation_ignores_remote_rc (hosts : List Host)
    (networks : List Network) (dhcp : List (Nat × DhcpConfig)) (nid : Nat)
    (mac ip hostname : String) (u : Option String) (pw : String)
    (rcW rcR : Int) (c : DhcpConfig)
    (hfind : dhcp.find? (fun p => p.1 = nid) = some (nid, c))
    (hpw : ¬ pw = "") :
    (addReservation hosts networks dhcp nid mac ip hostname u (some pw) rcW rcR).1.success
      = true ∧
    (addReservation hosts networks dhcp nid mac ip hostname u (some pw) rcW rcR).2.1.find?
        (fun p => p.1 = nid)
      = some (nid, resUpdated c mac ip hostname) ∧
    Event.persistDhcp
      ∈ (addReservation hosts networks dhcp nid mac ip hostname u (some pw) rcW rcR).2.2 := by
  obtain ⟨h1, h2, h3⟩ := addReservation_state hosts networks dhcp nid mac ip
    hostname u pw rcW rcR c hfind hpw
  refine ⟨h1, ?_, h3⟩
  rw [h2]
  exact find?_replace nid _ dhcp (nid, c) hfind

/-- C10 witness: a concrete reservation added while both remote commands
fail (exit code 1). -/
theorem C10_witness :
    (addReservation [hostA] [sampleNet] [(1, dhcpCfg1)] 1 "AA-BB-CC-DD-EE-FF"
        "10.1.0.50" "web" none (some "pw") 1 1).1.success = true ∧
    (addReservation [hostA] [sampleNet] [(1, dhcpCfg1)] 1 "AA-BB-CC-DD-EE-FF"
        "10.1.0.50" "web" none (some "pw") 1 1).2.1.find? (fun p => p.1 = 1)
      = some (1, resUpdated dhcpCfg1 "AA-BB-CC-DD-EE-FF" "10.1.0.50" "web") ∧
    Event.persistDhcp
      ∈ (addReservation [hostA] [sampleNet] [(1, dhcpCfg1)] 1 "AA-BB-CC-DD-EE-FF"
          "10.1.0.50" "web" none (some "pw") 1 1).2.2 :=
  C10_add_reservation_ignores_remote_rc [hostA] [sampleNet] [(1, dhcpCfg1)] 1
    "AA-BB-CC-DD-EE-FF" "10.1.0.50" "web" none "pw" 1 1 dhcpCfg1 rfl (by decide)

/-- C9: on a DHCP-enabled network whose stored reservations do not yet
mention MAC `M`, `add_reservation(M, X)` followed by `add_reservation(M, Y)`
leaves exactly one reservation for the normalized `M`, carrying `Y` — the
second add replaces the entry rather than duplicating it. -/
theorem C9_reservation_replaces (hosts : List Host) (networks : List Network)
    (dhcp : List (Nat × DhcpConfig)) (nid : Nat) (c : DhcpConfig)
    (mac ipX ipY h1 h2 : String) (u : Option String) (pw : String)
    (rc1 rc2 rc3 rc4 : Int)
    (hfind : dhcp.find? (fun p => p.1 = nid) = some (nid, c))
    (hpw : ¬ pw = "")
    (hnew : ∀ r ∈ c.reservations, ¬ r.mac = normalizeMac mac) :
    ∃ c₂,
      ((addReservation hosts networks
          (addReservation hosts networks dhcp nid mac ipX h1 u (some pw) rc1 rc2).2.1
          nid mac ipY h2 u (some pw) rc3 rc4).2.1.find? (fun p => p.1 = nid))
        = some (nid, c₂) ∧
      c₂.reservations.filter (fun r => r.mac = normalizeMac mac)
        = [{ mac := normalizeMac mac, ip := ipY, hostname := h2 }] := by
  have s1 := addReservation_state hosts networks dhcp nid mac ipX h1 u pw
    rc1 rc2 c hfind hpw
  have hfind1 : (addReservation hosts networks dhcp nid mac ipX h1 u (some pw)
      rc1 rc2).2.1.find? (fun p => p.1 = nid)
      = some (nid, resUpdated c mac ipX h1) := by
    rw [s1.2.1]
    exact find?_replace nid _ dhcp (nid, c) hfind
  have s2 := addReservation_state hosts networks
    (addReservation hosts networks dhcp nid mac ipX h1 u (some pw) rc1 rc2).2.1
    nid mac ipY h2 u pw rc3 rc4 _ hfind1 hpw
  refine ⟨resUpdated (resUpdated c mac ipX h1) mac ipY h2, ?_, ?_⟩
  · rw [s2.2.1]
    exact find?_replace nid _ _ _ hfind1
  · show (addResList (normalizeMac mac) ipY h2
        (addResList (normalizeMac mac) ipX h1 c.reservations)).filter
          (fun r => r.mac = normalizeMac mac)
      = [{ mac := normalizeMac mac, ip := ipY, hostname := h2 }]
    rw [addResList_append_new (normalizeMac mac) ipX h1 c.reservations hnew,
        addResList_update_last (normalizeMac mac) ipX h1 ipY h2 c.reservations hnew]
    exact filter_mac_single (normalizeMac mac) ipY h2 c.reservations hnew

/-- C9 witness: the replacement law at a concrete DHCP-enabled network with
an empty reservation list. -/
theorem C9_witness :
    ∃ c₂,
      ((addReservation [hostA] [sampleNet]
          (addReservation [hostA] [sampleNet] [(1, dhcpCfg1)] 1
            "AA-BB-CC-DD-EE-FF" "10.1.0.50" "web" none (some "pw") 0 0).2.1
          1 "AA-BB-CC-DD-EE-FF" "10.1.0.51" "web" none (some "pw") 0 0).2.1.find?
            (fun p => p.1 = 1))
        = some (1, c₂) ∧
      c₂.reservations.filter
          (fun r => r.mac = normalizeMac "AA-BB-CC-DD-EE-FF")
        = [{ mac := normalizeMac "AA-BB-CC-DD-EE-FF", ip := "10.1.0.51",
             hostname := "web" }] :=
  C9_reservation_replaces [hostA] [sampleNet] [(1, dhcpCfg1)] 1 dhcpCfg1
    "AA-BB-CC-DD-EE-FF" "10.1.0.50" "10.1.0.51" "web" "web" none "pw" 0 0 0 0
    rfl (by decide) (by decide)

end Recira
